import Mathlib

/-!
# Verification of the slide-video studio page (`src/pages/index.js`)

Shallow embedding of the timing, music-scheduling, chunk-collection, text-scaling and
session-control code of the page component.

Conventions of the embedding:

* JavaScript numbers are modelled by exact rationals (`ℚ`); `Math.floor` is `Int.floor`,
  `Math.max`/`Math.min` are `max`/`min`. Where the rounding of binary64 arithmetic decides
  an integer result (the slide index at a slide boundary), the operations are rounded to
  the nearest binary64 value (`roundDouble`, `frameDouble`).
* JavaScript strings are lists of Unicode characters (`JsString`); the `length` of a string
  is its number of UTF-16 code units (`jsLength`), two for a character above U+FFFF.
* Browser objects (canvas, audio graph, recorder) are modelled by the record of the calls
  that the code makes on them.
-/

namespace VideoStudio

/-- A JavaScript string without unpaired surrogates, as the list of its characters. -/
abbrev JsString := List Char

/-- The UTF-16 code units of one character: two above the Basic Multilingual Plane. -/
def codeUnits (c : Char) : ℕ :=
  if c.toNat < 0x10000 then 1 else 2

/-- Source: `s.length` for a string `s`: the number of its UTF-16 code units. -/
def jsLength (s : JsString) : ℕ :=
  (s.map codeUnits).sum

/-! ## Timeline: `duration`, `perSlide` and the slide index of the frame loops -/

/-- Source: `const duration = Math.max(5, targetDurationSec);`
(the same line in `startPreview` and in `startRecording`). -/
def duration (targetDurationSec : ℚ) : ℚ :=
  max 5 targetDurationSec

/-- Source: `const perSlide = duration / Math.max(1, slides.length);`
(the same line in `startPreview` and in `startRecording`). -/
def perSlide (targetDurationSec : ℚ) (slidesLength : ℕ) : ℚ :=
  duration targetDurationSec / max 1 (slidesLength : ℚ)

/-- Array read `xs[i]` for an integer `i`: `undefined` (here `none`) outside `0 .. length-1`. -/
def jsIndex {α : Type} (xs : List α) (i : ℤ) : Option α :=
  if 0 ≤ i then xs.get? i.toNat else none

/-- The arguments of one call `drawSlideToCanvas(ctx, w, h, slides[index], index)`. -/
structure DrawCall where
  /-- The value of `slides[index]`; `none` stands for `undefined`. -/
  text : Option JsString
  /-- The value of `index`. -/
  index : ℤ
  deriving DecidableEq, Repr

/-- Source: body of `frame` in `startPreview`, at `elapsed` seconds after `start`:
`const index = Math.min(slides.length - 1, Math.floor(elapsed / perSlide));`
`drawSlideToCanvas(ctx, w, h, slides[index], index);`
The loop always requests the next animation frame. -/
def frame (slides : List JsString) (targetDurationSec elapsed : ℚ) : DrawCall :=
  let perSlide := perSlide targetDurationSec slides.length
  let index : ℤ := min ((slides.length : ℤ) - 1) ⌊elapsed / perSlide⌋
  { text := jsIndex slides index, index := index }

/-- Source: body of `drawLoop` in `startRecording`, at `elapsed` seconds after `start`:
the same index and draw call as `frame`, and
`if (elapsed < duration) requestAnimationFrame(drawLoop);`
The boolean tells whether the next frame is requested. -/
def drawLoop (slides : List JsString) (targetDurationSec elapsed : ℚ) : DrawCall × Bool :=
  let duration := duration targetDurationSec
  let perSlide := perSlide targetDurationSec slides.length
  let index : ℤ := min ((slides.length : ℤ) - 1) ⌊elapsed / perSlide⌋
  ({ text := jsIndex slides index, index := index }, decide (elapsed < duration))

/-! ## The frame loops in binary64 arithmetic -/

/-- Rounding of a rational to the nearest integer, ties to the even one. -/
def roundHalfEven (x : ℚ) : ℤ :=
  if x - ⌊x⌋ < 1 / 2 then ⌊x⌋
  else if 1 / 2 < x - ⌊x⌋ then ⌊x⌋ + 1
  else if ⌊x⌋ % 2 = 0 then ⌊x⌋ else ⌊x⌋ + 1

/-- Exponent `k` of the last place of a binary64 significand for `x ≠ 0`:
`2^(k+52) ≤ |x| < 2^(k+53)`, so that `|x| / 2^k` has 53 bits before the point. -/
def ulpExponent (x : ℚ) : ℤ :=
  Int.log 2 |x| - 52

/-- The result of one IEEE 754 binary64 operation whose exact value is `x`: `x` rounded to
the nearest number with a 53-bit significand, ties to even. The exponent range is not
bounded here: in the frame loops a quotient that overflows in the code (`Infinity`) and its
finite value here are both clamped to the last slide, and a quotient that underflows has
floor 0 in both. -/
def roundDouble (x : ℚ) : ℚ :=
  (roundHalfEven (x / 2 ^ ulpExponent x) : ℚ) * 2 ^ ulpExponent x

/-- Source: `const perSlide = duration / Math.max(1, slides.length);` as the binary64
division computes it. -/
def perSlideDouble (targetDurationSec : ℚ) (slidesLength : ℕ) : ℚ :=
  roundDouble (duration targetDurationSec / max 1 (slidesLength : ℚ))

/-- Source: `const elapsed = (performance.now() - start) / 1000;` as the binary64 division
computes it, for a clock difference of `ms` milliseconds. -/
def elapsedDouble (ms : ℚ) : ℚ :=
  roundDouble (ms / 1000)

/-- Source: body of `frame` in `startPreview` in binary64 arithmetic, for the binary64 values
`targetDurationSec` and `elapsed`:
`const index = Math.min(slides.length - 1, Math.floor(elapsed / perSlide));`
`drawSlideToCanvas(ctx, w, h, slides[index], index);` -/
def frameDouble (slides : List JsString) (targetDurationSec elapsed : ℚ) : DrawCall :=
  let perSlide := perSlideDouble targetDurationSec slides.length
  let index : ℤ := min ((slides.length : ℤ) - 1) ⌊roundDouble (elapsed / perSlide)⌋
  { text := jsIndex slides index, index := index }

/-- Source: body of `drawLoop` in `startRecording` in binary64 arithmetic: the same index and
draw call as `frameDouble`, and `if (elapsed < duration) requestAnimationFrame(drawLoop);`. -/
def drawLoopDouble (slides : List JsString) (targetDurationSec elapsed : ℚ) :
    DrawCall × Bool :=
  let duration := duration targetDurationSec
  let perSlide := perSlideDouble targetDurationSec slides.length
  let index : ℤ := min ((slides.length : ℤ) - 1) ⌊roundDouble (elapsed / perSlide)⌋
  ({ text := jsIndex slides index, index := index }, decide (elapsed < duration))

/-! ## Strings and `chunkScriptToSlides` -/

/-- White space and line terminators removed by `String.prototype.trim`. -/
def isJsWhiteSpace (c : Char) : Bool :=
  c.toNat ∈ [0x09, 0x0A, 0x0B, 0x0C, 0x0D, 0x20, 0xA0, 0x1680, 0x2028, 0x2029, 0x202F,
    0x205F, 0x3000, 0xFEFF] || (0x2000 ≤ c.toNat && c.toNat ≤ 0x200A)

/-- Source: `l.trim()`. -/
def trim (l : JsString) : JsString :=
  ((l.dropWhile isJsWhiteSpace).reverse.dropWhile isJsWhiteSpace).reverse

/-- Scanner of `split(/\n+/)`: `cur` is the piece being read, `inRun` tells that the previous
character was a newline (the separator match is a maximal run of newlines). -/
def splitNewlineRunsGo : JsString → Bool → List Char → List JsString
  | cur, _, [] => [cur]
  | cur, inRun, c :: rest =>
    if c = '\n' then
      if inRun then splitNewlineRunsGo cur true rest
      else cur :: splitNewlineRunsGo [] true rest
    else splitNewlineRunsGo (cur ++ [c]) false rest

/-- Source: `(script || '').split(/\n+/)`. -/
def splitNewlineRuns (script : JsString) : List JsString :=
  splitNewlineRunsGo [] false script

/-- Scanner of `split(/\n/)`: every single newline separates two pieces. -/
def splitNewlineGo : JsString → List Char → List JsString
  | cur, [] => [cur]
  | cur, c :: rest =>
    if c = '\n' then cur :: splitNewlineGo [] rest
    else splitNewlineGo (cur ++ [c]) rest

/-- Source: `text.split(/\n/)`. -/
def splitNewline (text : JsString) : List JsString :=
  splitNewlineGo [] text

/-- Source: `buffer.join(sep)`. -/
def join (sep : JsString) (buffer : List JsString) : JsString :=
  List.intercalate sep buffer

/-- Source: one iteration of `for (const line of lines)` in `chunkScriptToSlides`, on the pair
`(slides, buffer)`:
`buffer.push(line); if (buffer.join(' ').length > 140) { slides.push(buffer.join('\n'));`
`buffer = []; }` -/
def chunkStep (st : List JsString × List JsString) (line : JsString) :
    List JsString × List JsString :=
  let buffer := st.2 ++ [line]
  if jsLength (join [' '] buffer) > 140 then (st.1 ++ [join ['\n'] buffer], [])
  else (st.1, buffer)

/-- Source: `const lines = (script || '').split(/\n+/).map(l => l.trim()).filter(Boolean);`
(an empty string is the only falsy string). -/
def scriptLines (script : JsString) : List JsString :=
  ((splitNewlineRuns script).map trim).filter (fun l => l.length != 0)

/-- Source: `function chunkScriptToSlides(script)`. -/
def chunkScriptToSlides (script : JsString) : List JsString :=
  let lines := scriptLines script
  let st := lines.foldl chunkStep ([], [])
  let slides := if st.2.length != 0 then st.1 ++ [join ['\n'] st.2] else st.1
  if slides.length != 0 then slides else ["Untitled".toList]

/-- Source: `function generateScriptFromIdea(idea)`: the empty string for an empty idea,
otherwise the six sections separated by blank lines, joined by `'\n'`. -/
def generateScriptFromIdea (idea : JsString) : JsString :=
  if idea.length = 0 then []
  else
    join ['\n']
      [ "Title: ".toList ++ idea,
        [],
        ("Hook: In this video, we explore the core idea in a practical and " ++
          "inspiring way.").toList,
        [],
        ("Intro: A quick overview of the problem, why it matters, and what we " ++
          "will cover.").toList,
        [],
        ("Body: Three concise points with examples and clear takeaways for the " ++
          "viewer.").toList,
        [],
        "Conclusion: Summarize the key lesson and actionable next steps.".toList,
        [],
        "Call to Action: Like, subscribe, and comment with your thoughts.".toList ]

/-! ## Background music: `useBackgroundMusic.schedule` -/

/-- Value of `osc.type`. -/
inductive OscType
  | sine
  | square
  | sawtooth
  deriving DecidableEq, Repr

/-- One automation call on an `AudioParam`. -/
inductive ParamEvent
  | setValueAtTime (value time : ℚ)
  | exponentialRampToValueAtTime (value time : ℚ)
  deriving DecidableEq, Repr

/-- One oscillator with its gain node, connected to `musicGain`: the calls made on them. -/
structure Voice where
  /-- Value given to `osc.type`. -/
  type : OscType
  /-- Calls on `osc.frequency`, in order. -/
  frequency : List ParamEvent
  /-- Calls on `gain.gain`, in order. -/
  gain : List ParamEvent
  /-- Argument of `osc.start`. -/
  start : ℚ
  /-- Argument of `osc.stop`. -/
  stop : ℚ
  deriving DecidableEq, Repr

/-- Source: `const tempo = bpm; const beatDur = 60 / tempo; // seconds per beat`. -/
def beatDur (bpm : ℚ) : ℚ :=
  60 / bpm

/-- Source: body of `for (let i = 0; i < 4; i++)` in `schedule`: the kick, the hat and, when
`i % 2 === 0`, the bass note of beat `i`, with `t = now + i * beatDur`. -/
def scheduleBeat (bpm now : ℚ) (i : ℕ) : List Voice :=
  let beatDur := beatDur bpm
  let t := now + (i : ℚ) * beatDur
  let osc : Voice :=
    { type := .sine
      frequency := [.setValueAtTime 120 t, .exponentialRampToValueAtTime 40 (t + 0.08)]
      gain := [.setValueAtTime 0.9 t, .exponentialRampToValueAtTime 0.001 (t + 0.1)]
      start := t
      stop := t + 0.11 }
  let hat : Voice :=
    { type := .square
      frequency := [.setValueAtTime 8000 (t + 0.25 * beatDur)]
      gain := [.setValueAtTime 0.08 (t + 0.25 * beatDur),
        .exponentialRampToValueAtTime 0.0001 (t + 0.25 * beatDur + 0.03)]
      start := t + 0.25 * beatDur
      stop := t + 0.25 * beatDur + 0.035 }
  let bass : Voice :=
    { type := .sawtooth
      frequency := [.setValueAtTime 55 t]
      gain := [.setValueAtTime 0.15 t, .exponentialRampToValueAtTime 0.0001 (t + 0.3)]
      start := t
      stop := t + 0.31 }
  if i % 2 = 0 then [osc, hat, bass] else [osc, hat]

/-- What one call of `schedule()` does: the voices it creates, in creation order, and the
delay in milliseconds given to `setTimeout(schedule, ...)` (`none`: no timer is set). -/
structure ScheduleResult where
  /-- The oscillators created. -/
  voices : List Voice
  /-- The delay of the timer that calls `schedule` again, in milliseconds. -/
  timeout : Option ℚ
  deriving DecidableEq, Repr

/-- Source: `function schedule()` at audio time `now = ctx.currentTime`:
`if (!ctx || isStopped) return;` (the context exists once the effect runs), the four beats,
then `setTimeout(schedule, beatDur * 1000 * 4 * 0.9);`. -/
def schedule (bpm : ℚ) (isStopped : Bool) (now : ℚ) : ScheduleResult :=
  if isStopped then { voices := [], timeout := none }
  else
    { voices := (List.range 4).flatMap (scheduleBeat bpm now)
      timeout := some (beatDur bpm * 1000 * 4 * 0.9) }

/-- Audio time of the next call of `schedule()` after a call at audio time `now`, when the
timer fires exactly after its delay and the audio clock advances with wall-clock time:
`now` plus the delay converted to seconds. -/
def nextScheduleTime (bpm : ℚ) (isStopped : Bool) (now : ℚ) : Option ℚ :=
  (schedule bpm isStopped now).timeout.map (fun ms => now + ms / 1000)

/-! ## Recorder chunks and the final blob -/

/-- A byte. -/
abbrev Byte := Fin 256

/-- A `Blob`: its bytes and its MIME type. -/
structure Blob where
  /-- The content. -/
  bytes : List Byte
  /-- The `type` property. -/
  type : String
  deriving DecidableEq, Repr

/-- Source: `blob.size`. -/
def Blob.size (b : Blob) : ℕ :=
  b.bytes.length

/-- A `dataavailable` event: its `data`, `none` when the event carries no blob. -/
structure BlobEvent where
  /-- The `data` property. -/
  data : Option Blob
  deriving DecidableEq, Repr

/-- Source: `recorder.ondataavailable = (e) => { if (e.data && e.data.size > 0)`
`chunks.push(e.data); };` -/
def ondataavailable (chunks : List Blob) (e : BlobEvent) : List Blob :=
  match e.data with
  | some data => if data.size > 0 then chunks ++ [data] else chunks
  | none => chunks

/-- The constructor `new Blob(parts, { type })`: the bytes of the parts, in order. -/
def newBlob (parts : List Blob) (type : String) : Blob :=
  { bytes := (parts.map Blob.bytes).flatten, type := type }

/-- Source: `chunks` after the events delivered between `recorder.start(250)` and the `stop`
event, starting from `const chunks = [];`. -/
def collectChunks (events : List BlobEvent) : List Blob :=
  events.foldl ondataavailable []

/-- Source: `const blob = new Blob(chunks, { type: 'video/webm' });` after the events. -/
def finalBlob (events : List BlobEvent) : Blob :=
  newBlob (collectChunks events) "video/webm"

/-! ## Text layout of `drawSlideToCanvas` -/

/-- Source: `const baseSize = Math.max(20, Math.min(64, Math.floor(w / 20)));` -/
def baseSize (w : ℚ) : ℚ :=
  max 20 (min 64 ((⌊w / 20⌋ : ℤ) : ℚ))

/-- The canvas calls made for one line of text. -/
structure LineDraw where
  /-- The line given to `ctx.fillText(line, 0, 0)`. -/
  line : JsString
  /-- The pixel size put in `ctx.font`. -/
  font : ℚ
  /-- The value of `metrics.width`. -/
  width : ℚ
  /-- The arguments of `ctx.translate`. -/
  translate : ℚ × ℚ
  /-- The arguments of `ctx.scale`. -/
  scale : ℚ × ℚ

/-- Source: body of `for (let i = 0; i < lines.length; i++)` in `drawSlideToCanvas`.
`measureText px line` is `ctx.measureText(line).width` under the font of size `px`, and `pow`
is `Math.pow`; both belong to the browser and are parameters. -/
def drawLine (measureText : ℚ → JsString → ℚ) (pow : ℚ → ℚ → ℚ) (w h baseSize : ℚ)
    (total i : ℕ) (line : JsString) : LineDraw :=
  let y := h / 2 + ((i : ℚ) - ((total : ℚ) - 1) / 2) * (baseSize * 1.4)
  let metricsWidth := measureText baseSize line
  let scale := min 1 ((w * 0.9) / (metricsWidth + 1))
  { line := line
    font := baseSize
    width := metricsWidth
    translate := (w / 2, y)
    scale := (scale, pow scale 0.85) }

/-- Source: the text section of `drawSlideToCanvas(ctx, w, h, text, idx)`:
`const lines = text.split(/\n/);`, `baseSize`, `total = lines.length` and the loop over the
lines. The gradient and the discs drawn before it take no part in the text transforms. -/
def drawSlideToCanvas (measureText : ℚ → JsString → ℚ) (pow : ℚ → ℚ → ℚ) (w h : ℚ)
    (text : JsString) : List LineDraw :=
  let lines := splitNewline text
  let baseSize := baseSize w
  let total := lines.length
  lines.enum.map (fun p => drawLine measureText pow w h baseSize total p.1 p.2)

/-! ## Session control: `startPreview` and `startRecording` -/

/-- Exceptions that the modelled code can raise. -/
inductive JsError
  /-- Reading `.split` of `undefined` in `drawSlideToCanvas`. -/
  | typeError
  /-- The constructor `new MediaRecorder(...)` rejects the stream or the MIME type. -/
  | notSupportedError
  /-- The call `recorder.start(250)` fails. -/
  | invalidStateError
  deriving DecidableEq, Repr

/-- The component state read or written by `startPreview` and `startRecording`, with the
browser resources that they create. -/
structure Studio where
  /-- React state `script`; `slides` is derived from it. -/
  script : JsString
  /-- React state `targetDurationSec`. -/
  targetDurationSec : ℚ
  /-- React state `isPreviewing`. -/
  isPreviewing : Bool
  /-- React state `isRecording`. -/
  isRecording : Bool
  /-- React state `recordedUrl`: the blob behind the object URL, `none` for `''`. -/
  recordedUrl : Option Blob
  /-- React state `thumbnailUrl`: the draw call behind the image, `none` for `''`. -/
  thumbnailUrl : Option DrawCall
  /-- Running `requestAnimationFrame` loops of `frame` (never cancelled by the page). -/
  frameLoops : ℕ
  /-- Running `requestAnimationFrame` loops of `drawLoop`. -/
  drawLoops : ℕ
  /-- Audio contexts created by `startRecording` and not closed. -/
  openAudioContexts : ℕ
  /-- Microphone tracks acquired by `startRecording` and not stopped. -/
  liveMicTracks : ℕ
  deriving DecidableEq

/-- Source: `const slides = useMemo(() => chunkScriptToSlides(script), [script]);` -/
def Studio.slides (s : Studio) : List JsString :=
  chunkScriptToSlides s.script

/-- The state after mounting with the `useState` defaults, before any script is loaded. -/
def Studio.initial : Studio :=
  { script := []
    targetDurationSec := 120
    isPreviewing := false
    isRecording := false
    recordedUrl := none
    thumbnailUrl := none
    frameLoops := 0
    drawLoops := 0
    openAudioContexts := 0
    liveMicTracks := 0 }

/-- Source: `function startPreview()`. The result is the state after the call and the
exception raised, if any. The first call of `frame()` is synchronous, right after
`start = performance.now()`, so its `elapsed` is taken as 0; it throws when `slides[index]`
is `undefined`, and otherwise requests the next frame, which starts the loop. -/
def startPreview (s : Studio) : Studio × Option JsError :=
  if s.isPreviewing then (s, none)
  else
    let s1 := { s with isPreviewing := true }
    match (frame s.slides s.targetDurationSec 0).text with
    | none => (s1, some .typeError)
    | some _ => ({ s1 with frameLoops := s1.frameLoops + 1 }, none)

/-- What the browser does during one call of `startRecording`. -/
structure RecordingEnv where
  /-- `getUserMedia` resolves with a stream of one audio track. -/
  micGranted : Bool
  /-- `new MediaRecorder(mixedStream, ...)` succeeds. -/
  recorderSupported : Bool
  /-- `recorder.start(250)` succeeds. -/
  recorderStarts : Bool
  deriving DecidableEq, Repr

/-- The local variables of a call of `startRecording` that is waiting for its timer. -/
structure Session where
  /-- The slide list of the render that made the call. -/
  slides : List JsString
  /-- The tracks of `micStream`, 0 when the microphone was not granted. -/
  micTracks : ℕ
  /-- The array `chunks`. -/
  chunks : List Blob
  deriving DecidableEq

/-- How the part of `startRecording` before `await new Promise(... setTimeout ...)` ends. -/
inductive Begun
  /-- The guard `if (isRecording) return;` fired. -/
  | skipped
  /-- An exception left the function (the returned promise is rejected). -/
  | threw (e : JsError)
  /-- The recorder runs and the function waits for `duration * 1000` milliseconds. -/
  | recording (session : Session)
  deriving DecidableEq

/-- Source: `async function startRecording()` up to `await new Promise(resolve =>`
`setTimeout(resolve, duration * 1000));`. The first call of `drawLoop()` is synchronous with
`elapsed` taken as 0. -/
def startRecordingBegin (env : RecordingEnv) (s : Studio) : Studio × Begun :=
  if s.isRecording then (s, .skipped)
  else
    let s1 := { s with recordedUrl := none, isRecording := true }
    let s2 := { s1 with openAudioContexts := s1.openAudioContexts + 1 }
    let micTracks := if env.micGranted then 1 else 0
    let s3 := { s2 with liveMicTracks := s2.liveMicTracks + micTracks }
    if !env.recorderSupported then (s3, .threw .notSupportedError)
    else
      let first := drawLoop s.slides s.targetDurationSec 0
      match first.1.text with
      | none => (s3, .threw .typeError)
      | some _ =>
        let s4 := if first.2 then { s3 with drawLoops := s3.drawLoops + 1 } else s3
        if !env.recorderStarts then (s4, .threw .invalidStateError)
        else (s4, .recording { slides := s.slides, micTracks := micTracks, chunks := [] })

/-- A later animation frame of `drawLoop`, `elapsed` seconds after `start`: the loop goes on
while `elapsed < duration` and ends otherwise. -/
def drawLoopTick (session : Session) (targetDurationSec elapsed : ℚ) (s : Studio) : Studio :=
  if (drawLoop session.slides targetDurationSec elapsed).2 then s
  else { s with drawLoops := s.drawLoops - 1 }

/-- A `dataavailable` event during the session. -/
def Session.deliver (session : Session) (e : BlobEvent) : Session :=
  { session with chunks := ondataavailable session.chunks e }

/-- Source: `captureThumbnail`: `drawSlideToCanvas(ctx, w, h, slides[0] || 'Thumbnail', 0)`
on a separate 1280 x 720 canvas. -/
def captureThumbnail (slides : List JsString) : DrawCall :=
  let text :=
    match slides.head? with
    | some t => if t.length != 0 then t else "Thumbnail".toList
    | none => "Thumbnail".toList
  { text := some text, index := 0 }

/-- Source: `startRecording` after the timer: `recorder.stop()`, the wait for `onstop`, the
blob, `setRecordedUrl(url)`, `setThumbnailUrl(...)`, `setIsRecording(false)`, then
`audioCtx.close()` and the stop of the microphone tracks. -/
def startRecordingFinish (session : Session) (s : Studio) : Studio :=
  { s with
    recordedUrl := some (newBlob session.chunks "video/webm")
    thumbnailUrl := some (captureThumbnail session.slides)
    isRecording := false
    openAudioContexts := s.openAudioContexts - 1
    liveMicTracks := s.liveMicTracks - session.micTracks }

/-- Source: a whole run of `startRecording()` during which `events` are delivered to
`ondataavailable` before the `stop` event. -/
def startRecording (env : RecordingEnv) (events : List BlobEvent) (s : Studio) :
    Studio × Option JsError :=
  match startRecordingBegin env s with
  | (s1, .skipped) => (s1, none)
  | (s1, .threw e) => (s1, some e)
  | (s1, .recording session) =>
    (startRecordingFinish (events.foldl Session.deliver session) s1, none)

/-! ## Shared lemmas on the timeline -/

theorem duration_eq_of_le {D : ℚ} (hD : 5 ≤ D) : duration D = D := by
  unfold duration
  exact max_eq_right hD

theorem perSlide_eq {D : ℚ} {N : ℕ} (hD : 5 ≤ D) (hN : 1 ≤ N) :
    perSlide D N = D / N := by
  have h1 : (1 : ℚ) ≤ (N : ℚ) := by exact_mod_cast hN
  unfold perSlide
  rw [duration_eq_of_le hD, max_eq_right h1]

theorem perSlide_pos {D : ℚ} {N : ℕ} (hD : 5 ≤ D) (hN : 1 ≤ N) : 0 < perSlide D N := by
  rw [perSlide_eq hD hN]
  have h1 : (0 : ℚ) < (N : ℚ) := by exact_mod_cast hN
  have h2 : (0 : ℚ) < D := by linarith
  exact div_pos h2 h1

theorem jsIndex_of_bounds {α : Type} (xs : List α) (i : ℤ) (h0 : 0 ≤ i)
    (h1 : i ≤ (xs.length : ℤ) - 1) : ∃ x, jsIndex xs i = some x ∧ x ∈ xs := by
  have hlt : i.toNat < xs.length := by omega
  refine ⟨xs.get ⟨i.toNat, hlt⟩, ?_, List.get_mem _ _ _⟩
  unfold jsIndex
  rw [if_pos h0]
  exact List.get?_eq_get hlt

theorem index_bounds {D e : ℚ} {N : ℕ} (hD : 5 ≤ D) (hN : 1 ≤ N) (he : 0 ≤ e) :
    0 ≤ min ((N : ℤ) - 1) ⌊e / perSlide D N⌋ ∧
      min ((N : ℤ) - 1) ⌊e / perSlide D N⌋ ≤ (N : ℤ) - 1 := by
  have hp := perSlide_pos hD hN
  have hq : 0 ≤ e / perSlide D N := div_nonneg he hp.le
  have hf : 0 ≤ ⌊e / perSlide D N⌋ := Int.floor_nonneg.mpr hq
  have hN1 : (0 : ℤ) ≤ (N : ℤ) - 1 := by omega
  exact ⟨le_min hN1 hf, min_le_left _ _⟩

/-- In exact arithmetic the index is `floor(e / (D/N))` before the end and `N - 1` from the
end on; the rounded computation of the code is `frameDouble`. -/
theorem index_cases {D e : ℚ} {N : ℕ} (hD : 5 ≤ D) (hN : 1 ≤ N) :
    (e < D → min ((N : ℤ) - 1) ⌊e / perSlide D N⌋ = ⌊e / (D / N)⌋) ∧
      (D ≤ e → min ((N : ℤ) - 1) ⌊e / perSlide D N⌋ = (N : ℤ) - 1) := by
  have hp := perSlide_pos hD hN
  have hNq : (0 : ℚ) < (N : ℚ) := by exact_mod_cast hN
  have hDq : (0 : ℚ) < D := by linarith
  have hmul : perSlide D N * (N : ℚ) = D := by
    rw [perSlide_eq hD hN]
    field_simp
  constructor
  · intro hlt
    rw [← perSlide_eq hD hN]
    apply min_eq_right
    have h1 : e / perSlide D N < (N : ℚ) := by
      rw [div_lt_iff₀ hp]
      linarith [mul_comm (perSlide D N) (N : ℚ)]
    have h2 : ⌊e / perSlide D N⌋ < (N : ℤ) := Int.floor_lt.mpr (by exact_mod_cast h1)
    omega
  · intro hge
    apply min_eq_left
    have h1 : (N : ℚ) ≤ e / perSlide D N := by
      rw [le_div_iff₀ hp]
      linarith [mul_comm (perSlide D N) (N : ℚ)]
    have h2 : (N : ℤ) ≤ ⌊e / perSlide D N⌋ := Int.le_floor.mpr (by exact_mod_cast h1)
    omega

/-! ## Shared lemmas on binary64 rounding and the rounded slide index -/

theorem roundHalfEven_sub_abs_le (x : ℚ) : |(roundHalfEven x : ℚ) - x| ≤ 1 / 2 := by
  have h1 : (⌊x⌋ : ℚ) ≤ x := Int.floor_le x
  have h2 : x < ⌊x⌋ + 1 := Int.lt_floor_add_one x
  unfold roundHalfEven
  rw [abs_le]
  split_ifs with ha hb hc
  · constructor <;> linarith
  · push_cast
    constructor <;> linarith
  · constructor <;> linarith
  · push_cast
    constructor <;> linarith

theorem roundHalfEven_nonneg (x : ℚ) (hx : 0 ≤ x) : 0 ≤ roundHalfEven x := by
  have h0 : 0 ≤ ⌊x⌋ := Int.floor_nonneg.mpr hx
  unfold roundHalfEven
  split_ifs <;> omega

theorem roundHalfEven_eq_of_near (x : ℚ) (m : ℤ) (h : |x - m| < 1 / 2) :
    roundHalfEven x = m := by
  have hr := roundHalfEven_sub_abs_le x
  rw [abs_lt] at h
  rw [abs_le] at hr
  have h1 : ((roundHalfEven x : ℤ) : ℚ) - m < 1 := by linarith
  have h2 : (-1 : ℚ) < (roundHalfEven x : ℚ) - m := by linarith
  have h3 : roundHalfEven x - m < 1 := by exact_mod_cast h1
  have h4 : -1 < roundHalfEven x - m := by exact_mod_cast h2
  omega

theorem two_zpow_pos (k : ℤ) : (0 : ℚ) < 2 ^ k :=
  zpow_pos (by norm_num) k

theorem ulpExponent_bracket (x : ℚ) (hx : 0 < x) :
    (2 : ℚ) ^ (ulpExponent x + 52) ≤ x ∧ x < 2 ^ (ulpExponent x + 53) := by
  unfold ulpExponent
  rw [abs_of_pos hx]
  have h1 := Int.zpow_log_le_self (b := 2) (r := x) (by norm_num) hx
  have h2 := Int.lt_zpow_succ_log_self (b := 2) (by norm_num) x
  constructor
  · have : Int.log 2 x - 52 + 52 = Int.log 2 x := by ring
    rw [this]
    exact_mod_cast h1
  · have : Int.log 2 x - 52 + 53 = Int.log 2 x + 1 := by ring
    rw [this]
    exact_mod_cast h2

theorem ulpExponent_eq (x : ℚ) (k : ℤ) (h1 : (2 : ℚ) ^ (k + 52) ≤ x)
    (h2 : x < 2 ^ (k + 53)) : ulpExponent x = k := by
  have hx : 0 < x := lt_of_lt_of_le (two_zpow_pos _) h1
  unfold ulpExponent
  rw [abs_of_pos hx]
  have ha : k + 52 ≤ Int.log 2 x :=
    (Int.zpow_le_iff_le_log (b := 2) (by norm_num) hx).mp (by exact_mod_cast h1)
  have hb : Int.log 2 x < k + 53 :=
    (Int.lt_zpow_iff_log_lt (b := 2) (by norm_num) hx).mp (by exact_mod_cast h2)
  omega

theorem roundDouble_eq (x : ℚ) (k m : ℤ) (h1 : (2 : ℚ) ^ (k + 52) ≤ x)
    (h2 : x < 2 ^ (k + 53)) (hm : |x / 2 ^ k - m| < 1 / 2) :
    roundDouble x = m * 2 ^ k := by
  unfold roundDouble
  rw [ulpExponent_eq x k h1 h2, roundHalfEven_eq_of_near _ m hm]

theorem roundDouble_zero : roundDouble 0 = 0 := by
  unfold roundDouble
  rw [zero_div]
  have : roundHalfEven 0 = 0 := roundHalfEven_eq_of_near 0 0 (by norm_num)
  rw [this]
  simp

theorem roundDouble_nonneg (x : ℚ) (hx : 0 ≤ x) : 0 ≤ roundDouble x := by
  unfold roundDouble
  have hs : 0 ≤ x / 2 ^ ulpExponent x := div_nonneg hx (two_zpow_pos _).le
  have hr : (0 : ℚ) ≤ (roundHalfEven (x / 2 ^ ulpExponent x) : ℚ) := by
    exact_mod_cast roundHalfEven_nonneg _ hs
  exact mul_nonneg hr (two_zpow_pos _).le

/-- Relative error of the rounding: at most `2^-53`. -/
theorem roundDouble_error (x : ℚ) (hx : 0 ≤ x) : |roundDouble x - x| ≤ x / 2 ^ 53 := by
  rcases eq_or_lt_of_le hx with h0 | hpos
  · rw [← h0, roundDouble_zero]
    simp
  · obtain ⟨hb1, -⟩ := ulpExponent_bracket x hpos
    have hk := two_zpow_pos (ulpExponent x)
    have hr := roundHalfEven_sub_abs_le (x / 2 ^ ulpExponent x)
    have hsplit : roundDouble x - x
        = ((roundHalfEven (x / 2 ^ ulpExponent x) : ℚ) - x / 2 ^ ulpExponent x)
          * 2 ^ ulpExponent x := by
      unfold roundDouble
      field_simp
    rw [hsplit, abs_mul, abs_of_pos hk]
    have hpow : (2 : ℚ) ^ (ulpExponent x + 52) = 2 ^ ulpExponent x * 2 ^ 52 := by
      rw [zpow_add₀ (by norm_num)]
      norm_num
    rw [hpow] at hb1
    have h1 : |(roundHalfEven (x / 2 ^ ulpExponent x) : ℚ) - x / 2 ^ ulpExponent x|
        * 2 ^ ulpExponent x ≤ 1 / 2 * 2 ^ ulpExponent x :=
      mul_le_mul_of_nonneg_right hr hk.le
    have h2 : (1 : ℚ) / 2 * 2 ^ ulpExponent x ≤ x / 2 ^ 53 := by
      rw [le_div_iff₀ (by norm_num)]
      have : (1 : ℚ) / 2 * 2 ^ ulpExponent x * 2 ^ 53 = 2 ^ ulpExponent x * 2 ^ 52 := by
        norm_num
        ring
      rw [this]
      exact hb1
    exact le_trans h1 h2

theorem roundDouble_bounds (x : ℚ) (hx : 0 ≤ x) :
    x - x / 2 ^ 53 ≤ roundDouble x ∧ roundDouble x ≤ x + x / 2 ^ 53 := by
  have h := roundDouble_error x hx
  rw [abs_le] at h
  constructor <;> linarith [h.1, h.2]

theorem perSlideDouble_eq {D : ℚ} {N : ℕ} (hD : 5 ≤ D) (hN : 1 ≤ N) :
    perSlideDouble D N = roundDouble (D / N) := by
  unfold perSlideDouble
  rw [← perSlide_eq hD hN]
  rfl

theorem perSlideDouble_bounds {D : ℚ} {N : ℕ} (hD : 5 ≤ D) (hN : 1 ≤ N) :
    0 < perSlideDouble D N ∧
      D / N - D / N / 2 ^ 53 ≤ perSlideDouble D N ∧
      perSlideDouble D N ≤ D / N + D / N / 2 ^ 53 := by
  have hNq : (0 : ℚ) < (N : ℚ) := by exact_mod_cast hN
  have hx : 0 < D / N := div_pos (by linarith) hNq
  rw [perSlideDouble_eq hD hN]
  obtain ⟨h1, h2⟩ := roundDouble_bounds (D / N) hx.le
  refine ⟨?_, h1, h2⟩
  have : 0 < D / N - D / N / 2 ^ 53 := by
    have : D / N / 2 ^ 53 < D / N := by
      rw [div_lt_iff₀ (by norm_num)]
      nlinarith
    linarith
  linarith

/-- Exact quotient against the quotient by the rounded `perSlide`. -/
theorem quotient_bounds {D e : ℚ} {N : ℕ} (hD : 5 ≤ D) (hN : 1 ≤ N) (he : 0 ≤ e) :
    e / perSlideDouble D N - e / perSlideDouble D N / 2 ^ 53 ≤ e / (D / N) ∧
      e / (D / N) ≤ e / perSlideDouble D N + e / perSlideDouble D N / 2 ^ 53 := by
  obtain ⟨hp, h1, h2⟩ := perSlideDouble_bounds hD hN
  have hNq : (0 : ℚ) < (N : ℚ) := by exact_mod_cast hN
  have hx : 0 < D / N := div_pos (by linarith) hNq
  have hy : 0 ≤ e / perSlideDouble D N := div_nonneg he hp.le
  have hyp : e / perSlideDouble D N * perSlideDouble D N = e := div_mul_cancel₀ e hp.ne'
  have hxx : e / (D / N) * (D / N) = e := div_mul_cancel₀ e hx.ne'
  constructor
  · apply le_of_mul_le_mul_right _ hx
    rw [hxx]
    have : (e / perSlideDouble D N - e / perSlideDouble D N / 2 ^ 53) * (D / N)
        = e / perSlideDouble D N * (D / N - D / N / 2 ^ 53) := by ring
    rw [this]
    calc e / perSlideDouble D N * (D / N - D / N / 2 ^ 53)
        ≤ e / perSlideDouble D N * perSlideDouble D N := mul_le_mul_of_nonneg_left h1 hy
      _ = e := hyp
  · apply le_of_mul_le_mul_right _ hx
    rw [hxx]
    have : (e / perSlideDouble D N + e / perSlideDouble D N / 2 ^ 53) * (D / N)
        = e / perSlideDouble D N * (D / N + D / N / 2 ^ 53) := by ring
    rw [this]
    calc e = e / perSlideDouble D N * perSlideDouble D N := hyp.symm
      _ ≤ e / perSlideDouble D N * (D / N + D / N / 2 ^ 53) :=
        mul_le_mul_of_nonneg_left h2 hy

theorem double_index_after_end {D e : ℚ} {N : ℕ} (hD : 5 ≤ D) (hN : 1 ≤ N)
    (hN2 : N < 2 ^ 32) (he : D ≤ e) :
    min ((N : ℤ) - 1) ⌊roundDouble (e / perSlideDouble D N)⌋ = (N : ℤ) - 1 := by
  obtain ⟨hp, -, -⟩ := perSlideDouble_bounds hD hN
  have he0 : 0 ≤ e := by linarith
  have hy : 0 ≤ e / perSlideDouble D N := div_nonneg he0 hp.le
  obtain ⟨-, hq2⟩ := quotient_bounds hD hN he0
  obtain ⟨hr1, -⟩ := roundDouble_bounds _ hy
  have hNq : (0 : ℚ) < (N : ℚ) := by exact_mod_cast hN
  have hNle : (N : ℚ) ≤ 4294967296 := by
    have h32 : N ≤ 4294967296 := by omega
    exact_mod_cast h32
  have hx : (N : ℚ) ≤ e / (D / N) := by
    rw [le_div_iff₀ (div_pos (by linarith) hNq)]
    have : (N : ℚ) * (D / N) = D := by field_simp
    rw [this]
    exact he
  have hge : ((N : ℚ) - 1) ≤ roundDouble (e / perSlideDouble D N) := by
    norm_num at hq2 hr1 ⊢
    linarith
  apply min_eq_left
  have : ((((N : ℤ) - 1 : ℤ)) : ℚ) ≤ roundDouble (e / perSlideDouble D N) := by
    push_cast
    exact hge
  exact Int.le_floor.mpr this

theorem double_index_near_exact {D e : ℚ} {N : ℕ} (hD : 5 ≤ D) (hN : 1 ≤ N)
    (hN2 : N < 2 ^ 32) (he : 0 ≤ e) (hlt : e < D) :
    ⌊e / (D / N)⌋ - 1 ≤ min ((N : ℤ) - 1) ⌊roundDouble (e / perSlideDouble D N)⌋ ∧
      min ((N : ℤ) - 1) ⌊roundDouble (e / perSlideDouble D N)⌋ ≤ ⌊e / (D / N)⌋ + 1 := by
  obtain ⟨hp, -, -⟩ := perSlideDouble_bounds hD hN
  have hy : 0 ≤ e / perSlideDouble D N := div_nonneg he hp.le
  obtain ⟨hq1, hq2⟩ := quotient_bounds hD hN he
  obtain ⟨hr1, hr2⟩ := roundDouble_bounds _ hy
  have hNq : (0 : ℚ) < (N : ℚ) := by exact_mod_cast hN
  have hNle : (N : ℚ) ≤ 4294967296 := by
    have h32 : N ≤ 4294967296 := by omega
    exact_mod_cast h32
  have hx0 : 0 ≤ e / (D / N) := div_nonneg he (div_pos (by linarith) hNq).le
  have hx : e / (D / N) < (N : ℚ) := by
    rw [div_lt_iff₀ (div_pos (by linarith) hNq)]
    have : (N : ℚ) * (D / N) = D := by field_simp
    rw [this]
    exact hlt
  have hup : roundDouble (e / perSlideDouble D N) < e / (D / N) + 1 := by
    norm_num at hq1 hq2 hr1 hr2 ⊢
    linarith
  have hlow : e / (D / N) - 1 < roundDouble (e / perSlideDouble D N) := by
    norm_num at hq1 hq2 hr1 hr2 ⊢
    linarith
  have h1 : ⌊roundDouble (e / perSlideDouble D N)⌋ ≤ ⌊e / (D / N)⌋ + 1 := by
    rw [← Int.floor_add_one]
    exact Int.floor_le_floor hup.le
  have h2 : ⌊e / (D / N)⌋ - 1 ≤ ⌊roundDouble (e / perSlideDouble D N)⌋ := by
    rw [← Int.floor_sub_one]
    exact Int.floor_le_floor hlow.le
  have h3 : ⌊e / (D / N)⌋ ≤ (N : ℤ) - 1 := by
    have : ⌊e / (D / N)⌋ < (N : ℤ) := Int.floor_lt.mpr (by exact_mod_cast hx)
    omega
  constructor
  · exact le_min (by omega) h2
  · exact le_trans (min_le_right _ _) h1

theorem roundDouble_one : roundDouble 1 = 1 := by
  have h := roundDouble_eq 1 (-52) (2 ^ 52) (by norm_num) (by norm_num) (by norm_num)
  rw [h]
  norm_num

theorem roundDouble_five : roundDouble 5 = 5 := by
  have h := roundDouble_eq 5 (-50) (5 * 2 ^ 50) (by norm_num) (by norm_num) (by norm_num)
  rw [h]
  norm_num

theorem roundDouble_twelve_fifths :
    roundDouble (12 / 5) = 5404319552844595 / 2251799813685248 := by
  have h := roundDouble_eq (12 / 5) (-51) 5404319552844595 (by norm_num) (by norm_num)
    (by rw [abs_lt]; constructor <;> norm_num)
  rw [h]
  norm_num

/-- The floor of a rounded quotient that stays clear of the integers. -/
theorem floor_roundDouble_of_clear (y : ℚ) (n : ℤ) (hn0 : 0 ≤ n) (hn : n ≤ 1000)
    (h1 : (n : ℚ) + 1 / 100 ≤ y) (h2 : y ≤ (n : ℚ) + 99 / 100) :
    ⌊roundDouble y⌋ = n := by
  have hnq0 : (0 : ℚ) ≤ (n : ℚ) := by exact_mod_cast hn0
  have hnq : (n : ℚ) ≤ 1000 := by exact_mod_cast hn
  have hy : 0 ≤ y := by linarith
  obtain ⟨hr1, hr2⟩ := roundDouble_bounds y hy
  rw [Int.floor_eq_iff]
  norm_num at hr1 hr2 ⊢
  constructor <;> linarith

theorem scenario_index (ms : ℚ) (n : ℤ) (hn0 : 0 ≤ n) (hn : n ≤ 1000)
    (h1 : (n : ℚ) + 2 / 100 ≤ ms / 1000 / 5) (h2 : ms / 1000 / 5 ≤ (n : ℚ) + 98 / 100) :
    (frameDouble ["A".toList, "B".toList] 10 (elapsedDouble ms)).index = min 1 n := by
  have hp : perSlideDouble 10 (["A".toList, "B".toList] : List JsString).length = 5 := by
    rw [perSlideDouble_eq (by norm_num) (by decide)]
    have : (10 : ℚ) / ((["A".toList, "B".toList] : List JsString).length : ℚ) = 5 := by
      norm_num
    rw [this, roundDouble_five]
  have hnq0 : (0 : ℚ) ≤ (n : ℚ) := by exact_mod_cast hn0
  have hnq : (n : ℚ) ≤ 1000 := by exact_mod_cast hn
  have hms : 0 ≤ ms / 1000 := by linarith
  obtain ⟨he1, he2⟩ := roundDouble_bounds (ms / 1000) hms
  have hfloor : ⌊roundDouble (elapsedDouble ms / 5)⌋ = n := by
    apply floor_roundDouble_of_clear _ n hn0 hn
    · unfold elapsedDouble
      norm_num at he1 he2 ⊢
      linarith
    · unfold elapsedDouble
      norm_num at he1 he2 ⊢
      linarith
  unfold frameDouble
  simp only []
  rw [hp, hfloor]
  rfl

/-- The rounded index stays in `0 .. N-1`, as the exact one does. -/
theorem frameDouble_index_bounds (slides : List JsString) (D e : ℚ)
    (hN : 1 ≤ slides.length) (hD : 5 ≤ D) (he : 0 ≤ e) :
    0 ≤ (frameDouble slides D e).index ∧
      (frameDouble slides D e).index ≤ (slides.length : ℤ) - 1 := by
  obtain ⟨hp, -, -⟩ := perSlideDouble_bounds (N := slides.length) hD hN
  have hq : 0 ≤ roundDouble (e / perSlideDouble D slides.length) :=
    roundDouble_nonneg _ (div_nonneg he hp.le)
  have hf : 0 ≤ ⌊roundDouble (e / perSlideDouble D slides.length)⌋ := Int.floor_nonneg.mpr hq
  have hN1 : (0 : ℤ) ≤ (slides.length : ℤ) - 1 := by omega
  exact ⟨le_min hN1 hf, min_le_left _ _⟩

/-! ## Shared lemmas on the slide list and the first frame -/

theorem length_pos_of_fallback (slides : List JsString) (fallback : JsString) :
    1 ≤ (if slides.length != 0 then slides else [fallback]).length := by
  cases slides with
  | nil => simp
  | cons x rest => simp

theorem chunkScriptToSlides_length_pos (script : JsString) :
    1 ≤ (chunkScriptToSlides script).length :=
  length_pos_of_fallback _ _

theorem perSlide_pos_of_any (D : ℚ) (N : ℕ) : 0 < perSlide D N := by
  unfold perSlide duration
  have h1 : (0 : ℚ) < max 5 D := lt_of_lt_of_le (by norm_num) (le_max_left _ _)
  have h2 : (0 : ℚ) < max 1 (N : ℚ) := lt_of_lt_of_le (by norm_num) (le_max_left _ _)
  exact div_pos h1 h2

theorem first_index (slides : List JsString) (D : ℚ) (hN : 1 ≤ slides.length) :
    min ((slides.length : ℤ) - 1) ⌊(0 : ℚ) / perSlide D slides.length⌋ = 0 := by
  rw [zero_div, Int.floor_zero]
  apply min_eq_right
  omega

theorem first_frame_text (slides : List JsString) (D : ℚ) (hN : 1 ≤ slides.length) :
    ∃ t, (frame slides D 0).text = some t ∧ t ∈ slides := by
  have h0 := first_index slides D hN
  have hb : (0 : ℤ) ≤ (slides.length : ℤ) - 1 := by omega
  have := jsIndex_of_bounds slides 0 (le_refl _) hb
  unfold frame
  simp only []
  rw [h0]
  exact this

theorem first_drawLoop (slides : List JsString) (D : ℚ) :
    (drawLoop slides D 0).1 = frame slides D 0 ∧ (drawLoop slides D 0).2 = true := by
  refine ⟨rfl, ?_⟩
  unfold drawLoop duration
  simp only [decide_eq_true_eq]
  exact lt_of_lt_of_le (by norm_num) (le_max_left _ _)

theorem startPreview_of_previewing (s : Studio) (h : s.isPreviewing = true) :
    startPreview s = (s, none) := by
  unfold startPreview
  rw [if_pos h]

theorem startPreview_of_not_previewing (s : Studio) (h : s.isPreviewing = false) :
    startPreview s
      = ({ s with isPreviewing := true, frameLoops := s.frameLoops + 1 }, none) := by
  obtain ⟨t, ht, -⟩ :=
    first_frame_text s.slides s.targetDurationSec (chunkScriptToSlides_length_pos s.script)
  unfold startPreview
  rw [if_neg (by simp [h]), ht]

theorem startRecordingBegin_of_recording (env : RecordingEnv) (s : Studio)
    (h : s.isRecording = true) : startRecordingBegin env s = (s, .skipped) := by
  unfold startRecordingBegin
  rw [if_pos h]

theorem startRecordingBegin_of_not_recording (env : RecordingEnv) (s : Studio)
    (h : s.isRecording = false) (hc : env.recorderSupported = true)
    (hs : env.recorderStarts = true) :
    startRecordingBegin env s
      = ({ s with
            recordedUrl := none
            isRecording := true
            openAudioContexts := s.openAudioContexts + 1
            liveMicTracks := s.liveMicTracks + (if env.micGranted then 1 else 0)
            drawLoops := s.drawLoops + 1 },
          .recording
            { slides := s.slides
              micTracks := if env.micGranted then 1 else 0
              chunks := [] }) := by
  obtain ⟨t, ht, -⟩ :=
    first_frame_text s.slides s.targetDurationSec (chunkScriptToSlides_length_pos s.script)
  obtain ⟨h1, h2⟩ := first_drawLoop s.slides s.targetDurationSec
  unfold startRecordingBegin
  rw [if_neg (by simp [h])]
  simp only [hc, hs, h1, h2, ht, Bool.not_true, Bool.false_eq_true, if_false, if_true]

theorem startRecordingBegin_isPreviewing (env : RecordingEnv) (s : Studio) :
    (startRecordingBegin env s).1.isPreviewing = s.isPreviewing := by
  unfold startRecordingBegin
  simp only []
  split
  · rfl
  · split
    · rfl
    · split
      · rfl
      · split <;> split <;> rfl

theorem startRecordingBegin_isRecording (env : RecordingEnv) (s : Studio)
    (h : s.isRecording = false) : (startRecordingBegin env s).1.isRecording = true := by
  unfold startRecordingBegin
  rw [if_neg (by simp [h])]
  simp only []
  split
  · rfl
  · split
    · rfl
    · split <;> split <;> rfl

theorem startRecordingBegin_of_unsupported (env : RecordingEnv) (s : Studio)
    (h : s.isRecording = false) (hc : env.recorderSupported = false) :
    startRecordingBegin env s
      = ({ s with
            recordedUrl := none
            isRecording := true
            openAudioContexts := s.openAudioContexts + 1
            liveMicTracks := s.liveMicTracks + (if env.micGranted then 1 else 0) },
          .threw .notSupportedError) := by
  unfold startRecordingBegin
  rw [if_neg (by simp [h])]
  simp only [hc, Bool.not_false, if_true]

theorem startRecordingBegin_of_start_failure (env : RecordingEnv) (s : Studio)
    (h : s.isRecording = false) (hc : env.recorderSupported = true)
    (hs : env.recorderStarts = false) :
    startRecordingBegin env s
      = ({ s with
            recordedUrl := none
            isRecording := true
            openAudioContexts := s.openAudioContexts + 1
            liveMicTracks := s.liveMicTracks + (if env.micGranted then 1 else 0)
            drawLoops := s.drawLoops + 1 },
          .threw .invalidStateError) := by
  obtain ⟨t, ht, -⟩ :=
    first_frame_text s.slides s.targetDurationSec (chunkScriptToSlides_length_pos s.script)
  obtain ⟨h1, h2⟩ := first_drawLoop s.slides s.targetDurationSec
  unfold startRecordingBegin
  rw [if_neg (by simp [h])]
  simp only [hc, hs, h1, h2, ht, Bool.not_true, Bool.not_false, Bool.false_eq_true, if_false,
    if_true]

theorem startRecordingBegin_drawLoops_of_supported (env : RecordingEnv) (s : Studio)
    (h : s.isRecording = false) (hc : env.recorderSupported = true) :
    (startRecordingBegin env s).1.drawLoops = s.drawLoops + 1 := by
  cases hs : env.recorderStarts with
  | true => rw [startRecordingBegin_of_not_recording env s h hc hs]
  | false => rw [startRecordingBegin_of_start_failure env s h hc hs]

/-! ## Shared lemmas on the chunk list -/

theorem foldl_ondataavailable (events : List BlobEvent) (chunks : List Blob) :
    events.foldl ondataavailable chunks
      = chunks ++ (events.filterMap BlobEvent.data).filter (fun d => decide (0 < d.size)) := by
  induction events generalizing chunks with
  | nil => simp
  | cons e rest ih =>
    rw [List.foldl_cons, ih]
    cases hd : e.data with
    | none => simp [ondataavailable, hd]
    | some d =>
      by_cases hsz : 0 < d.size
      · simp [ondataavailable, hd, hsz]
      · simp [ondataavailable, hd, hsz]

theorem flatten_filter_nonempty (parts : List Blob) :
    ((parts.filter (fun d => decide (0 < d.size))).map Blob.bytes).flatten
      = (parts.map Blob.bytes).flatten := by
  induction parts with
  | nil => rfl
  | cons d rest ih =>
    by_cases hsz : 0 < d.size
    · simp [hsz, ih]
    · have hnil : d.bytes = [] := by
        have : d.bytes.length = 0 := by
          unfold Blob.size at hsz
          omega
        exact List.length_eq_zero.mp this
      simp [hsz, ih, hnil]

theorem foldl_deliver_chunks (events : List BlobEvent) (session : Session) :
    (events.foldl Session.deliver session).chunks
      = events.foldl ondataavailable session.chunks := by
  induction events generalizing session with
  | nil => rfl
  | cons e rest ih =>
    rw [List.foldl_cons, List.foldl_cons, ih]
    rfl

/-! ## Shared lemmas on the text scale -/

theorem scale_facts (w m : ℚ) (hw : 0 < w) (hm : 0 ≤ m) :
    0 < min 1 ((w * 0.9) / (m + 1)) ∧ min 1 ((w * 0.9) / (m + 1)) ≤ 1 ∧
      min 1 ((w * 0.9) / (m + 1)) * m ≤ 0.9 * w := by
  have hm1 : 0 < m + 1 := by linarith
  have hq : 0 < (w * 0.9) / (m + 1) := div_pos (by linarith) hm1
  refine ⟨lt_min one_pos hq, min_le_left _ _, ?_⟩
  have h1 : min 1 ((w * 0.9) / (m + 1)) * m ≤ (w * 0.9) / (m + 1) * m :=
    mul_le_mul_of_nonneg_right (min_le_right _ _) hm
  have h2 : (w * 0.9) / (m + 1) * m ≤ 0.9 * w := by
    rw [div_mul_eq_mul_div, div_le_iff₀ hm1]
    nlinarith
  exact le_trans h1 h2

theorem scale_cases (w m : ℚ) (hm : 0 ≤ m) :
    (0.9 * w < m + 1 →
        min 1 ((w * 0.9) / (m + 1)) = 0.9 * w / (m + 1) ∧ min 1 ((w * 0.9) / (m + 1)) < 1) ∧
      (m + 1 ≤ 0.9 * w → min 1 ((w * 0.9) / (m + 1)) = 1) := by
  have hm1 : 0 < m + 1 := by linarith
  rw [mul_comm w 0.9]
  constructor
  · intro hlt
    have hq : 0.9 * w / (m + 1) < 1 := by
      rw [div_lt_one hm1]
      exact hlt
    exact ⟨min_eq_right hq.le, lt_of_le_of_lt (min_le_right _ _) hq⟩
  · intro hle
    apply min_eq_left
    rw [le_div_iff₀ hm1, one_mul]
    exact hle

theorem splitNewlineGo_length_pos (text cur : JsString) :
    1 ≤ (splitNewlineGo cur text).length := by
  induction text generalizing cur with
  | nil => simp [splitNewlineGo]
  | cons c rest ih =>
    rw [splitNewlineGo]
    split
    · simp
    · exact ih _

theorem drawSlideToCanvas_map (measureText : ℚ → JsString → ℚ) (pow : ℚ → ℚ → ℚ) (w h : ℚ)
    (text : JsString) :
    (drawSlideToCanvas measureText pow w h text).map (fun d => (d.line, d.width, d.scale))
      = (splitNewline text).map (fun line =>
          (line, measureText (baseSize w) line,
            min 1 (0.9 * w / (measureText (baseSize w) line + 1)),
            pow (min 1 (0.9 * w / (measureText (baseSize w) line + 1))) 0.85)) := by
  unfold drawSlideToCanvas
  simp only [List.map_map]
  have hfun : ((fun d : LineDraw => (d.line, d.width, d.scale)) ∘
      fun p : ℕ × JsString =>
        drawLine measureText pow w h (baseSize w) (splitNewline text).length p.1 p.2)
      = (fun line =>
          (line, measureText (baseSize w) line,
            min 1 (0.9 * w / (measureText (baseSize w) line + 1)),
            pow (min 1 (0.9 * w / (measureText (baseSize w) line + 1))) 0.85)) ∘ Prod.snd := by
    funext p
    simp only [Function.comp, drawLine, mul_comm w 0.9]
  rw [hfun, ← List.map_map, List.enum_map_snd]

/-! ## Claims -/

/-- C1: for every non-empty slide list (N ≥ 1 slides), every target duration D ≥ 5 and every
elapsed time e ≥ 0 (also e > D), the index used by the frame loop of `startPreview` and by
the draw loop of `startRecording` is `min(N-1, floor(e / perSlide))` with
`perSlide = max(5, D) / max(1, N)`, it is an integer in `0 .. N-1`, and `slides[index]` is a
slide of the list (never out of range). -/
theorem C1_index_in_range (slides : List JsString) (D e : ℚ)
    (hN : 1 ≤ slides.length) (hD : 5 ≤ D) (he : 0 ≤ e) :
    (frame slides D e).index
        = min ((slides.length : ℤ) - 1) ⌊e / (max 5 D / max 1 (slides.length : ℚ))⌋ ∧
      (drawLoop slides D e).1 = frame slides D e ∧
      0 ≤ (frame slides D e).index ∧
      (frame slides D e).index ≤ (slides.length : ℤ) - 1 ∧
      ∃ s, (frame slides D e).text = some s ∧ s ∈ slides := by
  obtain ⟨h0, h1⟩ := index_bounds (N := slides.length) hD hN he
  refine ⟨rfl, rfl, h0, h1, ?_⟩
  exact jsIndex_of_bounds slides _ h0 h1

/-- Witness of C1: two slides, target duration 10, elapsed 21/2 (beyond the duration). -/
theorem C1_index_in_range_witness :
    (1 ≤ (["A".toList, "B".toList] : List JsString).length ∧ (5 : ℚ) ≤ 10 ∧ (0 : ℚ) ≤ 21 / 2) ∧
      0 ≤ (frame ["A".toList, "B".toList] 10 (21 / 2)).index ∧
      (frame ["A".toList, "B".toList] 10 (21 / 2)).index ≤ 1 := by
  have h := C1_index_in_range ["A".toList, "B".toList] 10 (21 / 2)
    (by decide) (by norm_num) (by norm_num)
  refine ⟨⟨by decide, by norm_num, by norm_num⟩, h.2.2.1, ?_⟩
  simpa using h.2.2.2.1

/-- C2 fails as stated: with five slides and a target duration of 12, at a clock difference
of 2400 ms the code has `elapsed = 2.4` as a binary64 value, below the exact 12/5 and below
the duration; `perSlide` is the same binary64 value, so the rounded quotient is 1 and the
frame loop draws index 1, while `floor(e / (D/N))` is 0. -/
theorem C2_rounding_moves_index :
    elapsedDouble 2400 = 5404319552844595 / 2251799813685248 ∧
      perSlideDouble 12
          (["A".toList, "B".toList, "C".toList, "D".toList, "E".toList] : List JsString).length
        = 5404319552844595 / 2251799813685248 ∧
      (0 : ℚ) ≤ elapsedDouble 2400 ∧ elapsedDouble 2400 < 12 ∧
      ⌊elapsedDouble 2400 / ((12 : ℚ) / (5 : ℕ))⌋ = 0 ∧
      (frameDouble ["A".toList, "B".toList, "C".toList, "D".toList, "E".toList] 12
        (elapsedDouble 2400)).index = 1 ∧
      (drawLoopDouble ["A".toList, "B".toList, "C".toList, "D".toList, "E".toList] 12
        (elapsedDouble 2400)).1.index = 1 := by
  have he : elapsedDouble 2400 = 5404319552844595 / 2251799813685248 := by
    unfold elapsedDouble
    have : (2400 : ℚ) / 1000 = 12 / 5 := by norm_num
    rw [this, roundDouble_twelve_fifths]
  have hp : perSlideDouble 12
      (["A".toList, "B".toList, "C".toList, "D".toList, "E".toList] : List JsString).length
      = 5404319552844595 / 2251799813685248 := by
    rw [perSlideDouble_eq (by norm_num) (by decide)]
    have : (12 : ℚ) / ((["A".toList, "B".toList, "C".toList, "D".toList, "E".toList] :
        List JsString).length : ℚ) = 12 / 5 := by norm_num
    rw [this, roundDouble_twelve_fifths]
  have hidx : (frameDouble ["A".toList, "B".toList, "C".toList, "D".toList, "E".toList] 12
      (elapsedDouble 2400)).index = 1 := by
    unfold frameDouble
    simp only []
    rw [hp, he]
    have : (5404319552844595 / 2251799813685248 : ℚ) / (5404319552844595 / 2251799813685248)
        = 1 := by norm_num
    rw [this, roundDouble_one, Int.floor_one]
    rfl
  refine ⟨he, hp, ?_, ?_, ?_, hidx, hidx⟩
  · rw [he]
    norm_num
  · rw [he]
    norm_num
  · rw [he, Int.floor_eq_iff]
    norm_num

/-- C2 as amended: in binary64 arithmetic, for every slide list with 1 ≤ N < 2^32 slides,
target duration D ≥ 5 and elapsed time e ≥ 0, both frame loops use `perSlide` = D/N rounded
to the nearest binary64 value (relative error at most 2^-53) and select
`min(N-1, floor(q))` with `q` the rounded quotient `e / perSlide`; the index is `N-1` when
`e ≥ D`, and when `e < D` it differs from `floor(e / (D/N))` by at most one. For slides
`["A","B"]` and D = 10, `perSlide = 5` and the index is 0 at 4900 ms, 1 at 5100 ms and 1 at
10500 ms. -/
theorem C2_rounded_index (slides : List JsString) (D e : ℚ)
    (hN : 1 ≤ slides.length) (hN2 : slides.length < 2 ^ 32) (hD : 5 ≤ D) (he : 0 ≤ e) :
    (perSlideDouble D slides.length = roundDouble (D / slides.length) ∧
      |perSlideDouble D slides.length - D / slides.length| ≤ D / slides.length / 2 ^ 53 ∧
      (frameDouble slides D e).index
        = min ((slides.length : ℤ) - 1)
            ⌊roundDouble (e / roundDouble (D / slides.length))⌋ ∧
      (drawLoopDouble slides D e).1 = frameDouble slides D e ∧
      (D ≤ e → (frameDouble slides D e).index = (slides.length : ℤ) - 1) ∧
      (e < D →
        ⌊e / (D / slides.length)⌋ - 1 ≤ (frameDouble slides D e).index ∧
          (frameDouble slides D e).index ≤ ⌊e / (D / slides.length)⌋ + 1)) ∧
    (perSlideDouble 10 (["A".toList, "B".toList] : List JsString).length = 5 ∧
      (frameDouble ["A".toList, "B".toList] 10 (elapsedDouble 4900)).index = 0 ∧
      (frameDouble ["A".toList, "B".toList] 10 (elapsedDouble 5100)).index = 1 ∧
      (frameDouble ["A".toList, "B".toList] 10 (elapsedDouble 10500)).index = 1 ∧
      (drawLoopDouble ["A".toList, "B".toList] 10 (elapsedDouble 4900)).1.index = 0 ∧
      (drawLoopDouble ["A".toList, "B".toList] 10 (elapsedDouble 5100)).1.index = 1 ∧
      (drawLoopDouble ["A".toList, "B".toList] 10 (elapsedDouble 10500)).1.index = 1) := by
  have hNq : (0 : ℚ) < (slides.length : ℚ) := by exact_mod_cast hN
  have hpe := perSlideDouble_eq (N := slides.length) hD hN
  have herr : |perSlideDouble D slides.length - D / slides.length|
      ≤ D / slides.length / 2 ^ 53 := by
    rw [hpe]
    exact roundDouble_error _ (div_pos (by linarith) hNq).le
  have hidx : (frameDouble slides D e).index
      = min ((slides.length : ℤ) - 1) ⌊roundDouble (e / perSlideDouble D slides.length)⌋ :=
    rfl
  have hp10 : perSlideDouble 10 (["A".toList, "B".toList] : List JsString).length = 5 := by
    rw [perSlideDouble_eq (by norm_num) (by decide)]
    have : (10 : ℚ) / ((["A".toList, "B".toList] : List JsString).length : ℚ) = 5 := by
      norm_num
    rw [this, roundDouble_five]
  have ha := scenario_index 4900 0 (by decide) (by decide) (by norm_num) (by norm_num)
  have hb := scenario_index 5100 1 (by decide) (by decide) (by norm_num) (by norm_num)
  have hc := scenario_index 10500 2 (by decide) (by decide) (by norm_num) (by norm_num)
  refine ⟨⟨hpe, herr, ?_, rfl, ?_, ?_⟩, hp10, ha, hb, hc, ha, hb, hc⟩
  · rw [hidx, hpe]
  · intro hge
    rw [hidx]
    exact double_index_after_end hD hN hN2 hge
  · intro hlt
    rw [hidx]
    exact double_index_near_exact hD hN hN2 he hlt

/-- Witness of C2 as amended: three slides, target duration 12; at elapsed 13 the index is
the last one, and at elapsed 5 it is within one of `floor(5 / (12/3))`. -/
theorem C2_rounded_index_witness :
    (1 ≤ (["A".toList, "B".toList, "C".toList] : List JsString).length ∧
        (["A".toList, "B".toList, "C".toList] : List JsString).length < 2 ^ 32 ∧
        (5 : ℚ) ≤ 12 ∧ (0 : ℚ) ≤ 13 ∧ (0 : ℚ) ≤ 5) ∧
      (frameDouble ["A".toList, "B".toList, "C".toList] 12 13).index
        = ((["A".toList, "B".toList, "C".toList] : List JsString).length : ℤ) - 1 ∧
      (frameDouble ["A".toList, "B".toList, "C".toList] 12 5).index
        ≤ ⌊(5 : ℚ) / (12 / (["A".toList, "B".toList, "C".toList] : List JsString).length)⌋
          + 1 :=
  ⟨⟨by decide, by decide, by norm_num, by norm_num, by norm_num⟩,
    (C2_rounded_index ["A".toList, "B".toList, "C".toList] 12 13
      (by decide) (by decide) (by norm_num) (by norm_num)).1.2.2.2.2.1 (by norm_num),
    ((C2_rounded_index ["A".toList, "B".toList, "C".toList] 12 5
      (by decide) (by decide) (by norm_num) (by norm_num)).1.2.2.2.2.2 (by norm_num)).2⟩

/-- C3: for every sequence of `dataavailable` events in arrival order (some without data or
with a blob of size zero), the chunk list keeps exactly the non-empty blobs in arrival order,
and the bytes of the blob built at finalization are the concatenation of all delivered blobs
in arrival order; for `[c1, c2, c3]` they are `c1 ++ c2 ++ c3`; a whole successful run of
`startRecording` stores that blob. -/
theorem C3_blob_is_concatenation (events : List BlobEvent) :
    collectChunks events
        = (events.filterMap BlobEvent.data).filter (fun d => decide (0 < d.size)) ∧
      (finalBlob events).bytes = ((events.filterMap BlobEvent.data).map Blob.bytes).flatten ∧
      (∀ c1 c2 c3 : Blob,
        (finalBlob [⟨some c1⟩, ⟨some c2⟩, ⟨some c3⟩]).bytes
          = c1.bytes ++ c2.bytes ++ c3.bytes) ∧
      (∀ (env : RecordingEnv) (s : Studio), s.isRecording = false →
        env.recorderSupported = true → env.recorderStarts = true →
        (startRecording env events s).1.recordedUrl = some (finalBlob events)) := by
  have hcollect : collectChunks events
      = (events.filterMap BlobEvent.data).filter (fun d => decide (0 < d.size)) := by
    unfold collectChunks
    rw [foldl_ondataavailable]
    rfl
  have hbytes : ∀ evs : List BlobEvent,
      (finalBlob evs).bytes = ((evs.filterMap BlobEvent.data).map Blob.bytes).flatten := by
    intro evs
    unfold finalBlob newBlob collectChunks
    simp only []
    rw [foldl_ondataavailable, List.nil_append, flatten_filter_nonempty]
  refine ⟨hcollect, hbytes events, ?_, ?_⟩
  · intro c1 c2 c3
    rw [hbytes]
    simp
  · intro env s h hc hs
    unfold startRecording
    rw [startRecordingBegin_of_not_recording env s h hc hs]
    simp only [startRecordingFinish, foldl_deliver_chunks]
    rfl

/-- C4 (the code departs from the claim): at bpm = 60 a bar started at audio time 0 has its
beats at 0, 1, 2, 3 and its nominal end at 4 = 0 + 4 * (60/60); the timer delay is 3600 ms,
so with an exact timer and an audio clock that follows wall-clock time the next call of
`schedule()` reads `now = 18/5` and puts the first beat of the next bar at 18/5, before the
nominal end of the previous bar: the bars overlap by 2/5 s instead of being contiguous. -/
theorem C4_next_bar_starts_early :
    ((schedule 60 false 0).voices.filter (fun v => v.type = .sine)).map Voice.start
        = [0, 1, 2, 3] ∧
      (0 : ℚ) + 4 * beatDur 60 = 4 ∧
      (schedule 60 false 0).timeout = some 3600 ∧
      nextScheduleTime 60 false 0 = some (18 / 5) ∧
      ((schedule 60 false (18 / 5)).voices.map Voice.start).head? = some (18 / 5) ∧
      (18 / 5 : ℚ) ≠ 0 + 4 * beatDur 60 ∧
      (18 / 5 : ℚ) < 0 + 4 * beatDur 60 := by
  refine ⟨?_, ?_, ?_, ?_, ?_, ?_, ?_⟩
  · simp [schedule, scheduleBeat, beatDur, List.range_succ, List.flatMap, List.filter]
  · norm_num [beatDur]
  · norm_num [schedule, beatDur]
  · norm_num [nextScheduleTime, schedule, beatDur]
  · simp [schedule, scheduleBeat, beatDur, List.range_succ, List.flatMap]
  · norm_num [beatDur]
  · norm_num [beatDur]

/-- For every bpm > 0 the next call of `schedule()` comes `0.9 * 4 * (60/bpm)` seconds after
the previous one, strictly before the nominal end of the previous bar. -/
theorem nextScheduleTime_before_bar_end (bpm now : ℚ) (hbpm : 0 < bpm) :
    nextScheduleTime bpm false now = some (now + 0.9 * (4 * beatDur bpm)) ∧
      now + 0.9 * (4 * beatDur bpm) < now + 4 * beatDur bpm := by
  have hb : 0 < beatDur bpm := div_pos (by norm_num) hbpm
  constructor
  · simp only [nextScheduleTime, schedule, Bool.false_eq_true, if_false, Option.map_some']
    congr 1
    ring
  · norm_num
    linarith

/-- C5: for every bpm > 0 and every call of `schedule()` on a running synthesizer at audio
time `now`, the kicks (sine, 120 Hz ramped to 40 Hz at 0.08 s after the beat) start at
`now + i * (60/bpm)` for i = 0..3, the hats (square) start a quarter of a beat after each of
the four beats, the bass notes (sawtooth, 55 Hz) start at beats 0 and 2 only, and the bar
holds exactly 4 kicks, 4 hats and 2 bass notes and nothing else. -/
theorem C5_bar_contents (bpm now : ℚ) (_hbpm : 0 < bpm) :
    ((schedule bpm false now).voices.filter (fun v => v.type = .sine)).map
          (fun v => (v.start, v.frequency))
        = (List.range 4).map (fun i =>
            (now + (i : ℚ) * (60 / bpm),
              [ParamEvent.setValueAtTime 120 (now + (i : ℚ) * (60 / bpm)),
                ParamEvent.exponentialRampToValueAtTime 40
                  (now + (i : ℚ) * (60 / bpm) + 0.08)])) ∧
      ((schedule bpm false now).voices.filter (fun v => v.type = .square)).map Voice.start
        = (List.range 4).map (fun i => now + (i : ℚ) * (60 / bpm) + (60 / bpm) / 4) ∧
      ((schedule bpm false now).voices.filter (fun v => v.type = .sawtooth)).map
          (fun v => (v.start, v.frequency))
        = [(now + (0 : ℚ) * (60 / bpm),
              [ParamEvent.setValueAtTime 55 (now + (0 : ℚ) * (60 / bpm))]),
            (now + (2 : ℚ) * (60 / bpm),
              [ParamEvent.setValueAtTime 55 (now + (2 : ℚ) * (60 / bpm))])] ∧
      ((schedule bpm false now).voices.filter (fun v => v.type = .sine)).length = 4 ∧
      ((schedule bpm false now).voices.filter (fun v => v.type = .square)).length = 4 ∧
      ((schedule bpm false now).voices.filter (fun v => v.type = .sawtooth)).length = 2 ∧
      (schedule bpm false now).voices.length = 10 := by
  refine ⟨?_, ?_, ?_, ?_, ?_, ?_, ?_⟩
  · simp [schedule, scheduleBeat, beatDur, List.range_succ, List.flatMap, List.filter]
  · simp [schedule, scheduleBeat, beatDur, List.range_succ, List.flatMap, List.filter]
    ring
  · simp [schedule, scheduleBeat, beatDur, List.range_succ, List.flatMap, List.filter]
  · simp [schedule, scheduleBeat, List.range_succ, List.flatMap, List.filter]
  · simp [schedule, scheduleBeat, List.range_succ, List.flatMap, List.filter]
  · simp [schedule, scheduleBeat, List.range_succ, List.flatMap, List.filter]
  · simp [schedule, scheduleBeat, List.range_succ, List.flatMap]

/-- Witness of C5: the default tempo, bpm = 92, at audio time 0. -/
theorem C5_bar_contents_witness :
    (0 : ℚ) < 92 ∧
      ((schedule 92 false 0).voices.filter (fun v => v.type = .sine)).length = 4 ∧
      ((schedule 92 false 0).voices.filter (fun v => v.type = .square)).length = 4 ∧
      ((schedule 92 false 0).voices.filter (fun v => v.type = .sawtooth)).length = 2 ∧
      (schedule 92 false 0).voices.length = 10 :=
  ⟨by norm_num, (C5_bar_contents 92 0 (by norm_num)).2.2.2⟩

/-- C6: for every bpm > 0 the beat lasts `60/bpm` seconds, the bar of four beats lasts
`4 * 60/bpm` seconds and the timer that calls `schedule()` again is set to 0.9 times the bar,
`216/bpm` seconds, given in milliseconds; for bpm = 92 these are 15/23 s (about 0.652),
60/23 s (about 2.609) and 54/23 s (about 2.348). -/
theorem C6_beat_bar_delay (bpm now : ℚ) (hbpm : 0 < bpm) :
    (beatDur bpm = 60 / bpm ∧
      4 * beatDur bpm = 4 * 60 / bpm ∧
      (schedule bpm false now).timeout = some (0.9 * (4 * beatDur bpm) * 1000) ∧
      (schedule bpm false now).timeout = some (216 / bpm * 1000)) ∧
    (beatDur 92 = 15 / 23 ∧
      4 * beatDur 92 = 60 / 23 ∧
      (schedule 92 false now).timeout = some (54 / 23 * 1000) ∧
      |(15 / 23 : ℚ) - 0.652| < 0.0005 ∧
      |(60 / 23 : ℚ) - 2.609| < 0.0005 ∧
      |(54 / 23 : ℚ) - 2.348| < 0.0005) := by
  have hne : bpm ≠ 0 := ne_of_gt hbpm
  refine ⟨⟨rfl, ?_, ?_, ?_⟩, ?_, ?_, ?_, ?_, ?_, ?_⟩
  · unfold beatDur
    ring
  · simp only [schedule, Bool.false_eq_true, if_false]
    congr 1
    ring
  · simp only [schedule, Bool.false_eq_true, if_false, beatDur]
    congr 1
    field_simp
    ring
  · norm_num [beatDur]
  · norm_num [beatDur]
  · simp only [schedule, Bool.false_eq_true, if_false, beatDur]
    congr 1
    norm_num
  · rw [abs_lt]
    constructor <;> norm_num
  · rw [abs_lt]
    constructor <;> norm_num
  · rw [abs_lt]
    constructor <;> norm_num

/-- Witness of C6: bpm = 120 at audio time 0: the beat lasts 1/2 s and the delay is 1800 ms. -/
theorem C6_beat_bar_delay_witness :
    (0 : ℚ) < 120 ∧ beatDur 120 = 60 / 120 ∧
      (schedule 120 false 0).timeout = some (216 / 120 * 1000) :=
  ⟨by norm_num, (C6_beat_bar_delay 120 0 (by norm_num)).1.1,
    (C6_beat_bar_delay 120 0 (by norm_num)).1.2.2.2⟩

/-- C7 fails as stated: from the initial state, `startPreview()` then `startRecording()`
(recorder available) is not a no-op: it sets `isRecording` and starts a draw loop while
`isPreviewing` stays true; in the other order `startPreview()` during a recording sets
`isPreviewing` and starts a frame loop. Both flags are true in a reachable state. -/
theorem C7_both_flags_reachable :
    ((startPreview Studio.initial).1.isPreviewing = true ∧
      (startPreview Studio.initial).1.isRecording = false ∧
      (startPreview Studio.initial).1.drawLoops = 0 ∧
      (startRecordingBegin ⟨false, true, true⟩
        (startPreview Studio.initial).1).1.isPreviewing = true ∧
      (startRecordingBegin ⟨false, true, true⟩
        (startPreview Studio.initial).1).1.isRecording = true ∧
      (startRecordingBegin ⟨false, true, true⟩
        (startPreview Studio.initial).1).1.drawLoops = 1) ∧
    ((startRecordingBegin ⟨false, true, true⟩ Studio.initial).1.isRecording = true ∧
      (startRecordingBegin ⟨false, true, true⟩ Studio.initial).1.isPreviewing = false ∧
      (startRecordingBegin ⟨false, true, true⟩ Studio.initial).1.frameLoops = 0 ∧
      (startPreview
        (startRecordingBegin ⟨false, true, true⟩ Studio.initial).1).1.isRecording = true ∧
      (startPreview
        (startRecordingBegin ⟨false, true, true⟩ Studio.initial).1).1.isPreviewing = true ∧
      (startPreview
        (startRecordingBegin ⟨false, true, true⟩ Studio.initial).1).1.frameLoops = 1) := by
  constructor
  · rw [startPreview_of_not_previewing Studio.initial rfl]
    rw [startRecordingBegin_of_not_recording _ _ rfl rfl rfl]
    exact ⟨rfl, rfl, rfl, rfl, rfl, rfl⟩
  · rw [startRecordingBegin_of_not_recording _ Studio.initial rfl rfl rfl]
    rw [startPreview_of_not_previewing _ rfl]
    exact ⟨rfl, rfl, rfl, rfl, rfl, rfl⟩

/-- C7 as amended: each start operation is guarded by its own flag only. In every state,
`startPreview()` with `isPreviewing` set and `startRecording()` with `isRecording` set are
no-ops (state unchanged, no loop started, no error); `startPreview()` never changes
`isRecording` and the start of `startRecording()` never changes `isPreviewing`. A call made
while only the other session is active is not blocked: `startPreview()` during a recording
sets `isPreviewing` and starts one frame loop; `startRecording()` during a preview sets
`isRecording`, and it starts one draw loop when the recorder is constructed, none when
`new MediaRecorder` throws. From the initial state either order of the two calls reaches a
state with both flags true. -/
theorem C7_own_flag_guard (env : RecordingEnv) (events : List BlobEvent) (s : Studio) :
    (s.isPreviewing = true → startPreview s = (s, none)) ∧
      (s.isRecording = true →
        startRecordingBegin env s = (s, .skipped) ∧ startRecording env events s = (s, none)) ∧
      (startPreview s).1.isRecording = s.isRecording ∧
      (startRecordingBegin env s).1.isPreviewing = s.isPreviewing ∧
      (s.isRecording = true → s.isPreviewing = false →
        startPreview s
          = ({ s with isPreviewing := true, frameLoops := s.frameLoops + 1 }, none)) ∧
      (s.isPreviewing = true → s.isRecording = false →
        (startRecordingBegin env s).1.isPreviewing = true ∧
          (startRecordingBegin env s).1.isRecording = true ∧
          (env.recorderSupported = true →
            (startRecordingBegin env s).1.drawLoops = s.drawLoops + 1) ∧
          (env.recorderSupported = false →
            (startRecordingBegin env s).1.drawLoops = s.drawLoops ∧
              (startRecordingBegin env s).2 = .threw .notSupportedError)) ∧
      ((startRecordingBegin env (startPreview Studio.initial).1).1.isPreviewing = true ∧
        (startRecordingBegin env (startPreview Studio.initial).1).1.isRecording = true) ∧
      ((startPreview (startRecordingBegin env Studio.initial).1).1.isPreviewing = true ∧
        (startPreview (startRecordingBegin env Studio.initial).1).1.isRecording = true) := by
  have hprevRec : ∀ t : Studio, (startPreview t).1.isRecording = t.isRecording := by
    intro t
    cases hp : t.isPreviewing with
    | true => rw [startPreview_of_previewing t hp]
    | false => rw [startPreview_of_not_previewing t hp]
  refine ⟨startPreview_of_previewing s, ?_, hprevRec s,
    startRecordingBegin_isPreviewing env s, ?_, ?_, ?_, ?_⟩
  · intro h
    refine ⟨startRecordingBegin_of_recording env s h, ?_⟩
    unfold startRecording
    rw [startRecordingBegin_of_recording env s h]
  · intro _ hp
    exact startPreview_of_not_previewing s hp
  · intro hp hr
    refine ⟨(startRecordingBegin_isPreviewing env s).trans hp,
      startRecordingBegin_isRecording env s hr,
      startRecordingBegin_drawLoops_of_supported env s hr, ?_⟩
    intro hc
    rw [startRecordingBegin_of_unsupported env s hr hc]
    exact ⟨rfl, rfl⟩
  · refine ⟨(startRecordingBegin_isPreviewing env _).trans ?_,
      startRecordingBegin_isRecording env _ ?_⟩
    · rw [startPreview_of_not_previewing Studio.initial rfl]
    · rw [startPreview_of_not_previewing Studio.initial rfl]
      rfl
  · have hr : (startRecordingBegin env Studio.initial).1.isRecording = true :=
      startRecordingBegin_isRecording env Studio.initial rfl
    have hp : (startRecordingBegin env Studio.initial).1.isPreviewing = false :=
      startRecordingBegin_isPreviewing env Studio.initial
    refine ⟨?_, (hprevRec _).trans hr⟩
    rw [startPreview_of_not_previewing _ hp]

/-- C8: `startPreview()` is idempotent while previewing: in every state with `isPreviewing`
set the call returns without error and leaves the whole state unchanged, in particular the
numbers of running frame loops and draw loops; and in every state a second call right after
a first one changes nothing. -/
theorem C8_startPreview_idempotent (s : Studio) (h : s.isPreviewing = true) :
    startPreview s = (s, none) ∧
      (startPreview s).1.frameLoops = s.frameLoops ∧
      (startPreview s).1.drawLoops = s.drawLoops ∧
      (∀ s0 : Studio, startPreview (startPreview s0).1 = ((startPreview s0).1, none)) := by
  have h1 := startPreview_of_previewing s h
  refine ⟨h1, by rw [h1], by rw [h1], ?_⟩
  intro s0
  apply startPreview_of_previewing
  cases hp : s0.isPreviewing with
  | true => rw [startPreview_of_previewing s0 hp]; exact hp
  | false => rw [startPreview_of_not_previewing s0 hp]

/-- Witness of C8: the state reached from the initial one by a first `startPreview()`. -/
theorem C8_startPreview_idempotent_witness :
    ({ Studio.initial with isPreviewing := true, frameLoops := 1 } : Studio).isPreviewing
        = true ∧
      startPreview { Studio.initial with isPreviewing := true, frameLoops := 1 }
        = ({ Studio.initial with isPreviewing := true, frameLoops := 1 }, none) :=
  ⟨rfl, (C8_startPreview_idempotent
    { Studio.initial with isPreviewing := true, frameLoops := 1 } rfl).1⟩

/-- C9 fails as stated: with an empty script (the slide list is then `["Untitled"]`) and a
target duration of zero, `startPreview()` raises no error and starts its frame loop, and
`startRecording()` (recorder available) raises no error and starts its draw loop; the
duration used is 5. -/
theorem C9_zero_duration_starts_loops :
    ({ Studio.initial with targetDurationSec := 0 } : Studio).slides = ["Untitled".toList] ∧
      duration ({ Studio.initial with targetDurationSec := 0 } : Studio).targetDurationSec
        = 5 ∧
      (startPreview { Studio.initial with targetDurationSec := 0 }).2 = none ∧
      (startPreview { Studio.initial with targetDurationSec := 0 }).1.frameLoops = 1 ∧
      (startRecordingBegin ⟨false, true, true⟩
          { Studio.initial with targetDurationSec := 0 }).2
        = .recording { slides := ["Untitled".toList], micTracks := 0, chunks := [] } ∧
      (startRecordingBegin ⟨false, true, true⟩
          { Studio.initial with targetDurationSec := 0 }).1.drawLoops = 1 := by
  have hs : ({ Studio.initial with targetDurationSec := 0 } : Studio).slides
      = ["Untitled".toList] := by decide
  refine ⟨hs, ?_, ?_, ?_, ?_, ?_⟩
  · norm_num [duration]
  · rw [startPreview_of_not_previewing _ rfl]
  · rw [startPreview_of_not_previewing _ rfl]
    rfl
  · rw [startRecordingBegin_of_not_recording _ _ rfl rfl rfl, hs]
    rfl
  · rw [startRecordingBegin_of_not_recording _ _ rfl rfl rfl]
    rfl

/-- C9 as amended: timing underflow is clamped, not rejected. In every state, whatever the
script and the target duration (zero included), the slide list has at least one slide, the
duration used is at least 5 and `perSlide` is positive; `startPreview()` never raises an
error and, when not already previewing, starts its frame loop; `startRecording()`, when not
already recording and when the recorder is constructed and started, starts its draw loop
and waits for the timer. -/
theorem C9_underflow_is_clamped (env : RecordingEnv) (s : Studio) :
    1 ≤ s.slides.length ∧
      5 ≤ duration s.targetDurationSec ∧
      0 < perSlide s.targetDurationSec s.slides.length ∧
      (startPreview s).2 = none ∧
      (s.isPreviewing = false → (startPreview s).1.frameLoops = s.frameLoops + 1) ∧
      (s.isRecording = false → env.recorderSupported = true → env.recorderStarts = true →
        (startRecordingBegin env s).1.drawLoops = s.drawLoops + 1 ∧
          (startRecordingBegin env s).2
            = .recording
                { slides := s.slides
                  micTracks := if env.micGranted then 1 else 0
                  chunks := [] }) := by
  refine ⟨chunkScriptToSlides_length_pos s.script, le_max_left _ _,
    perSlide_pos_of_any _ _, ?_, ?_, ?_⟩
  · cases hp : s.isPreviewing with
    | true => rw [startPreview_of_previewing s hp]
    | false => rw [startPreview_of_not_previewing s hp]
  · intro hp
    rw [startPreview_of_not_previewing s hp]
  · intro hr hc hs
    rw [startRecordingBegin_of_not_recording env s hr hc hs]
    exact ⟨rfl, rfl⟩

/-- C10: for every surface width w > 0 and every text, when the measured widths are
non-negative, `drawSlideToCanvas` draws exactly the lines of `text.split(/\n/)`, one draw per
line and in order (at least one), each measured under the base font and scaled horizontally
by `s = min(1, 0.9 * w / (m + 1))` for its measured width `m` and vertically by
`Math.pow(s, 0.85)`; for each draw `0 < s ≤ 1` and `s * m ≤ 0.9 * w`, a line with
`m + 1 > 0.9 * w` is scaled down (`s = 0.9 * w / (m + 1) < 1`) and a line with
`m + 1 ≤ 0.9 * w` is drawn unscaled (`s = 1`). -/
theorem C10_line_scale (measureText : ℚ → JsString → ℚ) (pow : ℚ → ℚ → ℚ) (w h : ℚ)
    (text : JsString) (hw : 0 < w) (hm : ∀ px line, 0 ≤ measureText px line) :
    (drawSlideToCanvas measureText pow w h text).map (fun d => (d.line, d.width, d.scale))
        = (splitNewline text).map (fun line =>
            (line, measureText (baseSize w) line,
              min 1 (0.9 * w / (measureText (baseSize w) line + 1)),
              pow (min 1 (0.9 * w / (measureText (baseSize w) line + 1))) 0.85)) ∧
      1 ≤ (drawSlideToCanvas measureText pow w h text).length ∧
      ∀ d ∈ drawSlideToCanvas measureText pow w h text,
        d.width = measureText (baseSize w) d.line ∧
          d.scale.1 = min 1 (0.9 * w / (d.width + 1)) ∧
          0 < d.scale.1 ∧ d.scale.1 ≤ 1 ∧
          d.scale.1 * d.width ≤ 0.9 * w ∧
          d.scale.2 = pow d.scale.1 0.85 ∧
          (0.9 * w < d.width + 1 →
            d.scale.1 = 0.9 * w / (d.width + 1) ∧ d.scale.1 < 1) ∧
          (d.width + 1 ≤ 0.9 * w → d.scale.1 = 1) := by
  refine ⟨drawSlideToCanvas_map measureText pow w h text, ?_, ?_⟩
  · have hlen := congrArg List.length (drawSlideToCanvas_map measureText pow w h text)
    rw [List.length_map, List.length_map] at hlen
    rw [hlen]
    exact splitNewlineGo_length_pos text []
  · intro d hd
    unfold drawSlideToCanvas at hd
    simp only [List.mem_map] at hd
    obtain ⟨p, -, rfl⟩ := hd
    obtain ⟨h1, h2, h3⟩ := scale_facts w (measureText (baseSize w) p.2) hw (hm _ _)
    obtain ⟨h4, h5⟩ := scale_cases w (measureText (baseSize w) p.2) (hm _ _)
    refine ⟨rfl, ?_, h1, h2, h3, rfl, h4, h5⟩
    show min 1 ((w * 0.9) / (measureText (baseSize w) p.2 + 1))
      = min 1 (0.9 * w / (measureText (baseSize w) p.2 + 1))
    rw [mul_comm w 0.9]

/-- Witness of C10: a 200 pixel wide surface, a font metric of three fifths of the font size
for each character, and a text of a short line and a long line: the short line is drawn
unscaled, the long line (288 pixels wide for 180 allowed) is scaled by 180/289. -/
theorem C10_line_scale_witness :
    ((0 : ℚ) < 200 ∧
        ∀ (px : ℚ) (line : JsString), 0 ≤ |px| * (line.length : ℚ) * (3 / 5)) ∧
      (drawSlideToCanvas (fun px line => |px| * (line.length : ℚ) * (3 / 5))
          (fun x y => x * y) 200 100 "Hi\nA long line of text here".toList).map
          (fun d => (d.line, d.width, d.scale))
        = [("Hi".toList, 24, 1, 17 / 20),
            ("A long line of text here".toList, 288, 180 / 289, 9 / 17)] := by
  have hm : ∀ (px : ℚ) (line : JsString), 0 ≤ |px| * (line.length : ℚ) * (3 / 5) :=
    fun px line => mul_nonneg (mul_nonneg (abs_nonneg px) (Nat.cast_nonneg _)) (by norm_num)
  have hall := C10_line_scale (fun px line => |px| * (line.length : ℚ) * (3 / 5))
    (fun x y => x * y) 200 100 "Hi\nA long line of text here".toList (by norm_num) hm
  have hsplit : splitNewline "Hi\nA long line of text here".toList
      = ["Hi".toList, "A long line of text here".toList] := by decide
  have hbase : baseSize 200 = 20 := by
    have hf : ⌊(200 : ℚ) / 20⌋ = 10 := by norm_num [Int.floor_eq_iff]
    unfold baseSize
    rw [hf]
    norm_num
  refine ⟨⟨by norm_num, hm⟩, ?_⟩
  rw [hall.1, hsplit, hbase]
  norm_num

/-! ## Failure paths of `startRecording` -/

/-- In every state that is not recording, a run of `startRecording` in which the recorder
cannot be constructed, or cannot be started, ends with the error, `isRecording` still set, one
more open audio context and the acquired microphone track still live. -/
theorem startRecording_failure_keeps_resources (env : RecordingEnv) (events : List BlobEvent)
    (s : Studio) (h : s.isRecording = false)
    (hfail : env.recorderSupported = false ∨ env.recorderStarts = false) :
    (startRecording env events s).2 ≠ none ∧
      (startRecording env events s).1.isRecording = true ∧
      (startRecording env events s).1.openAudioContexts = s.openAudioContexts + 1 ∧
      (startRecording env events s).1.liveMicTracks
        = s.liveMicTracks + (if env.micGranted then 1 else 0) := by
  cases hc : env.recorderSupported with
  | false =>
    unfold startRecording
    rw [startRecordingBegin_of_unsupported env s h hc]
    exact ⟨by simp, rfl, rfl, rfl⟩
  | true =>
    have hs : env.recorderStarts = false := by
      rcases hfail with h1 | h1
      · rw [hc] at h1
        exact absurd h1 (by simp)
      · exact h1
    unfold startRecording
    rw [startRecordingBegin_of_start_failure env s h hc hs]
    exact ⟨by simp, rfl, rfl, rfl⟩

/-- C11 (the code departs from the claim): from the initial state with the microphone granted,
a run of `startRecording` in which `new MediaRecorder(...)` throws ends with the error
propagated but with `isRecording` still true, the audio context still open and the microphone
track still live; the same when `recorder.start(250)` throws; every later call is then
skipped by the guard. The run without failure does reset the flag, close the context and
stop the track. -/
theorem C11_failure_skips_cleanup :
    startRecording ⟨true, false, true⟩ [] Studio.initial
        = ({ Studio.initial with
              isRecording := true, openAudioContexts := 1, liveMicTracks := 1 },
            some .notSupportedError) ∧
      startRecording ⟨true, true, false⟩ [] Studio.initial
        = ({ Studio.initial with
              isRecording := true, openAudioContexts := 1, liveMicTracks := 1,
              drawLoops := 1 },
            some .invalidStateError) ∧
      startRecording ⟨true, true, true⟩ []
          (startRecording ⟨true, false, true⟩ [] Studio.initial).1
        = ((startRecording ⟨true, false, true⟩ [] Studio.initial).1, none) ∧
      ((startRecording ⟨true, true, true⟩ [] Studio.initial).2 = none ∧
        (startRecording ⟨true, true, true⟩ [] Studio.initial).1.isRecording = false ∧
        (startRecording ⟨true, true, true⟩ [] Studio.initial).1.openAudioContexts = 0 ∧
        (startRecording ⟨true, true, true⟩ [] Studio.initial).1.liveMicTracks = 0) := by
  have h1 : startRecording ⟨true, false, true⟩ [] Studio.initial
      = ({ Studio.initial with
            isRecording := true, openAudioContexts := 1, liveMicTracks := 1 },
          some .notSupportedError) := by
    unfold startRecording
    rw [startRecordingBegin_of_unsupported _ _ rfl rfl]
    rfl
  refine ⟨h1, ?_, ?_, ?_⟩
  · unfold startRecording
    rw [startRecordingBegin_of_start_failure _ _ rfl rfl rfl]
    rfl
  · rw [h1]
    unfold startRecording
    rw [startRecordingBegin_of_recording _ _ rfl]
  · unfold startRecording
    rw [startRecordingBegin_of_not_recording _ _ rfl rfl rfl]
    exact ⟨rfl, rfl, rfl, rfl⟩

/-! ## Shared lemmas on the lines of a slide -/

theorem join_singleton (sep x : JsString) : join sep [x] = x := by
  simp [join, List.intercalate, List.intersperse]

theorem join_cons_cons (sep x y : JsString) (rest : List JsString) :
    join sep (x :: y :: rest) = x ++ sep ++ join sep (y :: rest) := by
  simp [join, List.intercalate, List.intersperse]

theorem splitNewlineGo_of_no_newline (l cur : JsString) (h : '\n' ∉ l) :
    splitNewlineGo cur l = [cur ++ l] := by
  induction l generalizing cur with
  | nil => simp [splitNewlineGo]
  | cons c rest ih =>
    have hc : c ≠ '\n' := fun hEq => h (by simp [hEq])
    have hr : '\n' ∉ rest := fun hm => h (List.mem_cons_of_mem _ hm)
    rw [splitNewlineGo, if_neg hc, ih _ hr]
    simp

theorem splitNewlineGo_append_newline (l cur rest : JsString) (h : '\n' ∉ l) :
    splitNewlineGo cur (l ++ '\n' :: rest) = (cur ++ l) :: splitNewlineGo [] rest := by
  induction l generalizing cur with
  | nil => simp [splitNewlineGo]
  | cons c tail ih =>
    have hc : c ≠ '\n' := fun hEq => h (by simp [hEq])
    have hr : '\n' ∉ tail := fun hm => h (List.mem_cons_of_mem _ hm)
    rw [List.cons_append, splitNewlineGo, if_neg hc, ih _ hr]
    simp

theorem splitNewline_join (buffer : List JsString) (hne : buffer ≠ [])
    (h : ∀ l ∈ buffer, '\n' ∉ l) : splitNewline (join ['\n'] buffer) = buffer := by
  induction buffer with
  | nil => exact absurd rfl hne
  | cons x rest ih =>
    have hx : '\n' ∉ x := h x (List.mem_cons_self _ _)
    cases rest with
    | nil =>
      rw [join_singleton]
      unfold splitNewline
      rw [splitNewlineGo_of_no_newline x [] hx]
      rfl
    | cons y rest2 =>
      have hrest : ∀ l ∈ y :: rest2, '\n' ∉ l := fun l hl => h l (List.mem_cons_of_mem _ hl)
      have ih2 := ih (by simp) hrest
      unfold splitNewline at ih2 ⊢
      rw [join_cons_cons, List.append_assoc, List.singleton_append,
        splitNewlineGo_append_newline x [] _ hx, ih2]
      rfl

theorem splitNewlineRunsGo_no_newline (rest cur : JsString) (inRun : Bool)
    (h : '\n' ∉ cur) : ∀ p ∈ splitNewlineRunsGo cur inRun rest, '\n' ∉ p := by
  induction rest generalizing cur inRun with
  | nil =>
    intro p hp
    simp only [splitNewlineRunsGo, List.mem_singleton] at hp
    rw [hp]
    exact h
  | cons c tail ih =>
    intro p hp
    rw [splitNewlineRunsGo] at hp
    by_cases hc : c = '\n'
    · rw [if_pos hc] at hp
      cases inRun with
      | true =>
        simp only [if_true] at hp
        exact ih cur true h p hp
      | false =>
        simp only [Bool.false_eq_true, if_false, List.mem_cons] at hp
        rcases hp with hp | hp
        · rw [hp]
          exact h
        · exact ih [] true (by simp) p hp
    · rw [if_neg hc] at hp
      refine ih (cur ++ [c]) false ?_ p hp
      intro hm
      rcases List.mem_append.mp hm with h1 | h1
      · exact h h1
      · exact hc (List.mem_singleton.mp h1).symm

theorem trim_no_newline (l : JsString) (h : '\n' ∉ l) : '\n' ∉ trim l := by
  intro hm
  unfold trim at hm
  rw [List.mem_reverse] at hm
  have h1 := (List.dropWhile_sublist isJsWhiteSpace).subset hm
  rw [List.mem_reverse] at h1
  exact h ((List.dropWhile_sublist isJsWhiteSpace).subset h1)

theorem lines_no_newline (script : JsString) : ∀ l ∈ scriptLines script, '\n' ∉ l := by
  intro l hl
  have h1 := List.mem_of_mem_filter hl
  obtain ⟨p, hp, rfl⟩ := List.mem_map.mp h1
  exact trim_no_newline p (splitNewlineRunsGo_no_newline script [] false (by simp) p hp)

theorem splitNewline_ne_nil (text : JsString) : splitNewline text ≠ [] := by
  intro h
  have := splitNewlineGo_length_pos text []
  unfold splitNewline at h
  rw [h] at this
  exact absurd this (by simp)

theorem foldl_chunkStep_invariant (lines : List JsString)
    (st : List JsString × List JsString) (hlines : ∀ l ∈ lines, '\n' ∉ l)
    (hslides : ∀ slide ∈ st.1,
      jsLength (join [' '] (splitNewline slide).dropLast) ≤ 140 ∧
        140 < jsLength (join [' '] (splitNewline slide)))
    (hbuf : ∀ l ∈ st.2, '\n' ∉ l)
    (hlen : jsLength (join [' '] st.2) ≤ 140)
    (hlast : jsLength (join [' '] st.2.dropLast) ≤ 140) :
    (∀ slide ∈ (lines.foldl chunkStep st).1,
        jsLength (join [' '] (splitNewline slide).dropLast) ≤ 140 ∧
          140 < jsLength (join [' '] (splitNewline slide))) ∧
      (∀ l ∈ (lines.foldl chunkStep st).2, '\n' ∉ l) ∧
      jsLength (join [' '] (lines.foldl chunkStep st).2) ≤ 140 ∧
      jsLength (join [' '] (lines.foldl chunkStep st).2.dropLast) ≤ 140 ∧
      (((lines.foldl chunkStep st).1.map splitNewline).flatten ++ (lines.foldl chunkStep st).2
        = (st.1.map splitNewline).flatten ++ st.2 ++ lines) := by
  induction lines generalizing st with
  | nil => exact ⟨hslides, hbuf, hlen, hlast, by simp⟩
  | cons line rest ih =>
    rw [List.foldl_cons]
    have hline : '\n' ∉ line := hlines line (List.mem_cons_self _ _)
    have hrest : ∀ l ∈ rest, '\n' ∉ l := fun l hl => hlines l (List.mem_cons_of_mem _ hl)
    have hbuf2 : ∀ l ∈ st.2 ++ [line], '\n' ∉ l := by
      intro l hl
      rcases List.mem_append.mp hl with h1 | h1
      · exact hbuf l h1
      · rw [List.mem_singleton.mp h1]
        exact hline
    have hsplit : splitNewline (join ['\n'] (st.2 ++ [line])) = st.2 ++ [line] :=
      splitNewline_join _ (by simp) hbuf2
    by_cases hflush : jsLength (join [' '] (st.2 ++ [line])) > 140
    · have hstep : chunkStep st line = (st.1 ++ [join ['\n'] (st.2 ++ [line])], []) := by
        unfold chunkStep
        simp only []
        rw [if_pos hflush]
      rw [hstep]
      have hslides2 : ∀ slide ∈ st.1 ++ [join ['\n'] (st.2 ++ [line])],
          jsLength (join [' '] (splitNewline slide).dropLast) ≤ 140 ∧
            140 < jsLength (join [' '] (splitNewline slide)) := by
        intro slide hs
        rcases List.mem_append.mp hs with h1 | h1
        · exact hslides slide h1
        · rw [List.mem_singleton.mp h1, hsplit, List.dropLast_concat]
          exact ⟨hlen, hflush⟩
      obtain ⟨r1, r2, r3, r4, r5⟩ :=
        ih (st.1 ++ [join ['\n'] (st.2 ++ [line])], []) hrest hslides2
          (fun l hl => absurd hl (List.not_mem_nil l)) (Nat.zero_le _) (Nat.zero_le _)
      refine ⟨r1, r2, r3, r4, ?_⟩
      rw [r5]
      simp [hsplit]
    · have hstep : chunkStep st line = (st.1, st.2 ++ [line]) := by
        unfold chunkStep
        simp only []
        rw [if_neg hflush]
      rw [hstep]
      have hlast2 : jsLength (join [' '] (st.2 ++ [line]).dropLast) ≤ 140 := by
        rw [List.dropLast_concat]
        exact hlen
      obtain ⟨r1, r2, r3, r4, r5⟩ :=
        ih (st.1, st.2 ++ [line]) hrest hslides hbuf2 (Nat.le_of_not_lt hflush) hlast2
      refine ⟨r1, r2, r3, r4, ?_⟩
      rw [r5]
      simp

theorem flatten_map_splitNewline_ne_nil (slides : List JsString) (h : slides ≠ []) :
    (slides.map splitNewline).flatten ≠ [] := by
  cases slides with
  | nil => exact absurd rfl h
  | cons x rest =>
    intro hnil
    have hx : splitNewline x = [] := by
      rw [List.map_cons, List.flatten_cons] at hnil
      exact (List.append_eq_nil.mp hnil).1
    exact splitNewline_ne_nil x hx

/-- The slides in terms of the final pair `(slides, buffer)` of the loop. -/
theorem chunkScriptToSlides_cases (script : JsString) :
    ((scriptLines script).foldl chunkStep ([], [])).2 ≠ [] ∧
        chunkScriptToSlides script
          = ((scriptLines script).foldl chunkStep ([], [])).1
            ++ [join ['\n'] ((scriptLines script).foldl chunkStep ([], [])).2] ∨
      ((scriptLines script).foldl chunkStep ([], [])).2 = [] ∧
        ((scriptLines script).foldl chunkStep ([], [])).1 ≠ [] ∧
        chunkScriptToSlides script = ((scriptLines script).foldl chunkStep ([], [])).1 ∨
      ((scriptLines script).foldl chunkStep ([], [])).2 = [] ∧
        ((scriptLines script).foldl chunkStep ([], [])).1 = [] ∧
        chunkScriptToSlides script = ["Untitled".toList] := by
  unfold chunkScriptToSlides
  simp only []
  generalize (scriptLines script).foldl chunkStep ([], []) = st
  obtain ⟨slides, buffer⟩ := st
  cases buffer with
  | cons x rest =>
    left
    refine ⟨by simp, ?_⟩
    simp
  | nil =>
    right
    cases slides with
    | cons y more =>
      left
      exact ⟨rfl, by simp, by simp⟩
    | nil =>
      right
      exact ⟨rfl, rfl, by simp⟩

set_option maxRecDepth 1000000 in
/-- C12 fails as stated: the script that `generateScriptFromIdea` builds for the default idea
`AI productivity hacks` gives two slides whose lines, joined by a single space, have lengths
188 and 205, both above 140. -/
theorem C12_default_script_exceeds_140 :
    (chunkScriptToSlides (generateScriptFromIdea "AI productivity hacks".toList)).map
        (fun slide => jsLength (join [' '] (splitNewline slide))) = [188, 205] := by
  decide

/-- C12 as amended: `chunkScriptToSlides` keeps every non-blank trimmed line of the script
whole and in order and closes a slide as soon as its combined length (its lines joined by a
single space, counted in UTF-16 code units) exceeds 140. For every script text: with no
non-blank line the result is the single slide `Untitled`; otherwise the lines of the returned
slides, in order, are exactly the non-blank trimmed lines of the script; for each returned
slide the lines other than the last have combined length at most 140; and every returned
slide except the last has combined length above 140. -/
theorem C12_slides_close_after_140 (script : JsString) :
    (scriptLines script = [] → chunkScriptToSlides script = ["Untitled".toList]) ∧
      (scriptLines script ≠ [] →
        ((chunkScriptToSlides script).map splitNewline).flatten = scriptLines script) ∧
      (∀ slide ∈ chunkScriptToSlides script,
        jsLength (join [' '] (splitNewline slide).dropLast) ≤ 140) ∧
      (∀ slide ∈ (chunkScriptToSlides script).dropLast,
        140 < jsLength (join [' '] (splitNewline slide))) := by
  obtain ⟨hslides, hbuf, -, hlast, hcat⟩ := foldl_chunkStep_invariant
    (scriptLines script) ([], []) (lines_no_newline script)
    (fun _ h => absurd h (List.not_mem_nil _))
    (fun _ h => absurd h (List.not_mem_nil _)) (Nat.zero_le _) (Nat.zero_le _)
  simp only [List.map_nil, List.flatten_nil, List.nil_append] at hcat
  rcases chunkScriptToSlides_cases script with ⟨hne, heq⟩ | ⟨hnil, hne, heq⟩ | ⟨hnil, hnil1, heq⟩
  · have hsplit := splitNewline_join _ hne hbuf
    refine ⟨?_, ?_, ?_, ?_⟩
    · intro hl
      exact absurd (List.append_eq_nil.mp (hcat.trans hl)).2 hne
    · intro _
      rw [heq, List.map_append, List.flatten_append, List.map_singleton,
        List.flatten_singleton, hsplit]
      exact hcat
    · intro slide hs
      rw [heq] at hs
      rcases List.mem_append.mp hs with h1 | h1
      · exact (hslides slide h1).1
      · rw [List.mem_singleton.mp h1, hsplit]
        exact hlast
    · intro slide hs
      rw [heq, List.dropLast_concat] at hs
      exact (hslides slide hs).2
  · rw [hnil, List.append_nil] at hcat
    refine ⟨?_, ?_, ?_, ?_⟩
    · intro hl
      exact absurd (hcat.trans hl) (flatten_map_splitNewline_ne_nil _ hne)
    · intro _
      rw [heq]
      exact hcat
    · intro slide hs
      rw [heq] at hs
      exact (hslides slide hs).1
    · intro slide hs
      rw [heq] at hs
      exact (hslides slide (List.mem_of_mem_dropLast hs)).2
  · rw [hnil, hnil1] at hcat
    refine ⟨fun _ => heq, ?_, ?_, ?_⟩
    · intro hl
      exact absurd hcat.symm hl
    · intro slide hs
      rw [heq] at hs
      rw [List.mem_singleton.mp hs]
      decide
    · intro slide hs
      rw [heq] at hs
      exact absurd hs (by simp)

set_option maxRecDepth 1000000 in
/-- Witness of C12 as amended: for the script that `generateScriptFromIdea` builds for the
default idea, the first slide is closed by its third line: it is not the last slide, its
combined length is above 140 and its first two lines have combined length at most 140. -/
theorem C12_slides_close_after_140_witness :
    (("Title: AI productivity hacks\nHook: In this video, we explore the core idea in a " ++
          "practical and inspiring way.\nIntro: A quick overview of the problem, why it " ++
          "matters, and what we will cover.").toList
        ∈ (chunkScriptToSlides
            (generateScriptFromIdea "AI productivity hacks".toList)).dropLast) ∧
      140 < jsLength (join [' '] (splitNewline
        ("Title: AI productivity hacks\nHook: In this video, we explore the core idea in a " ++
          "practical and inspiring way.\nIntro: A quick overview of the problem, why it " ++
          "matters, and what we will cover.").toList)) ∧
      jsLength (join [' '] (splitNewline
        ("Title: AI productivity hacks\nHook: In this video, we explore the core idea in a " ++
          "practical and inspiring way.\nIntro: A quick overview of the problem, why it " ++
          "matters, and what we will cover.").toList).dropLast) ≤ 140 :=
  ⟨by decide,
    (C12_slides_close_after_140
      (generateScriptFromIdea "AI productivity hacks".toList)).2.2.2 _ (by decide),
    (C12_slides_close_after_140
      (generateScriptFromIdea "AI productivity hacks".toList)).2.2.1 _ (by decide)⟩

set_option maxRecDepth 1000000 in
/-- The 140 threshold counts UTF-16 code units: a line of 71 characters above U+FFFF has
length 142 and closes its slide, so the next line starts a second slide. -/
theorem chunkScriptToSlides_counts_code_units :
    jsLength (List.replicate 71 (Char.ofNat 0x1F600)) = 142 ∧
      chunkScriptToSlides (List.replicate 71 (Char.ofNat 0x1F600) ++ "\nb".toList)
        = [List.replicate 71 (Char.ofNat 0x1F600), "b".toList] := by
  constructor <;> decide

end VideoStudio
